import Mathlib

/-!
Verification of the frame deferral engine (`FrameBuilder.cpp`) of the
hwui renderer.  The C++ source is shallowly embedded: machine floats are
modelled as exact fractions, pointers as `Option`, fatal aborts and
undefined behaviour as `none` results, and the batching interface of
`LayerBuilder` as the ordered stream of defer events it receives.
-/

/-- Exact fraction with positive denominator, standing in for the C++
floats of the renderer.  Operations never normalise, so kernel
evaluation stays cheap; all comparisons cross-multiply. -/
structure Q where
  n : Int
  d : Int
deriving DecidableEq

instance : OfNat Q k := ⟨⟨(k : Int), 1⟩⟩

instance : Neg Q := ⟨fun a => ⟨-a.n, a.d⟩⟩

instance : Add Q := ⟨fun a b => ⟨a.n * b.d + b.n * a.d, a.d * b.d⟩⟩

instance : Sub Q := ⟨fun a b => a + (-b)⟩

instance : Mul Q := ⟨fun a b => ⟨a.n * b.n, a.d * b.d⟩⟩

/-- Division; a zero divisor yields `0`, standing in for the garbage a
C++ float division by zero produces.  The sign is normalised so the
denominator stays positive. -/
def Q.div (a b : Q) : Q :=
  if b.n = 0 then ⟨0, 1⟩
  else if b.n < 0 then ⟨-(a.n * b.d), a.d * (-b.n)⟩
  else ⟨a.n * b.d, a.d * b.n⟩

instance : LE Q := ⟨fun a b => a.n * b.d ≤ b.n * a.d⟩

instance : LT Q := ⟨fun a b => a.n * b.d < b.n * a.d⟩

instance (a b : Q) : Decidable (a ≤ b) :=
  inferInstanceAs (Decidable (a.n * b.d ≤ b.n * a.d))

instance (a b : Q) : Decidable (a < b) :=
  inferInstanceAs (Decidable (a.n * b.d < b.n * a.d))

def Q.floor (a : Q) : Int := Int.fdiv a.n a.d

def Q.ceil (a : Q) : Int := -(Int.fdiv (-a.n) a.d)

def Q.min (a b : Q) : Q := if a ≤ b then a else b

def Q.max (a b : Q) : Q := if a ≤ b then b else a

def Q.ofInt (i : Int) : Q := ⟨i, 1⟩

/-- Axis-aligned rectangle, as `uirenderer::Rect`. -/
structure Rect where
  left : Q
  top : Q
  right : Q
  bottom : Q
deriving DecidableEq

/-- Emptiness test of `Rect::isEmpty`: a rectangle with non-positive
extent in either axis is empty. -/
def Rect.isEmpty (r : Rect) : Bool :=
  r.right ≤ r.left ∨ r.bottom ≤ r.top

/-- Unconditional componentwise intersection, as `Rect::doIntersect`
(which may leave an inverted, hence empty, rectangle). -/
def Rect.doIntersect (a b : Rect) : Rect :=
  ⟨Q.max a.left b.left, Q.max a.top b.top, Q.min a.right b.right, Q.min a.bottom b.bottom⟩

/-- Outward rounding to integer coordinates, as `Rect::roundOut`. -/
def Rect.roundOut (r : Rect) : Rect :=
  ⟨Q.ofInt r.left.floor, Q.ofInt r.top.floor, Q.ofInt r.right.ceil, Q.ofInt r.bottom.ceil⟩

def Rect.getWidth (r : Rect) : Q := r.right - r.left

def Rect.getHeight (r : Rect) : Q := r.bottom - r.top

def Rect.sized (w h : Q) : Rect := ⟨0, 0, w, h⟩

/-- Outset every side by `v`, used for stroke accounting. -/
def Rect.outset (r : Rect) (v : Q) : Rect :=
  ⟨r.left - v, r.top - v, r.right + v, r.bottom + v⟩

/-- Two-dimensional affine transform, standing in for the `Matrix4`
values the deferral engine composes (the engine never introduces
perspective).  A point maps as `x' = a x + c y + tx`, `y' = b x + d y + ty`. -/
structure Affine where
  a : Q
  b : Q
  c : Q
  d : Q
  tx : Q
  ty : Q
deriving DecidableEq

def Affine.identM : Affine := ⟨1, 0, 0, 1, 0, 0⟩

def Affine.translation (dx dy : Q) : Affine := ⟨1, 0, 0, 1, dx, dy⟩

/-- Composition `m1 * m2`: apply `m2` first, then `m1`.  This is the
order of `Matrix4::multiply(rhs)` acting on column vectors. -/
def Affine.mul (m1 m2 : Affine) : Affine :=
  ⟨m1.a * m2.a + m1.c * m2.b,
   m1.b * m2.a + m1.d * m2.b,
   m1.a * m2.c + m1.c * m2.d,
   m1.b * m2.c + m1.d * m2.d,
   m1.a * m2.tx + m1.c * m2.ty + m1.tx,
   m1.b * m2.tx + m1.d * m2.ty + m1.ty⟩

/-- Post-multiplied translation, as `Matrix4::translate`. -/
def Affine.translateBy (m : Affine) (dx dy : Q) : Affine :=
  m.mul (Affine.translation dx dy)

def Affine.mapPoint (m : Affine) (x y : Q) : Q × Q :=
  (m.a * x + m.c * y + m.tx, m.b * x + m.d * y + m.ty)

/-- Bounding box of the images of the four corners, as
`Matrix4::mapRect` for affine transforms. -/
def Affine.mapRect (m : Affine) (r : Rect) : Rect :=
  let p1 := m.mapPoint r.left r.top
  let p2 := m.mapPoint r.right r.top
  let p3 := m.mapPoint r.left r.bottom
  let p4 := m.mapPoint r.right r.bottom
  ⟨Q.min (Q.min p1.1 p2.1) (Q.min p3.1 p4.1),
   Q.min (Q.min p1.2 p2.2) (Q.min p3.2 p4.2),
   Q.max (Q.max p1.1 p2.1) (Q.max p3.1 p4.1),
   Q.max (Q.max p1.2 p2.2) (Q.max p3.2 p4.2)⟩

/-- Inverse affine transform, as `Matrix4::loadInverse`; a singular
input yields garbage (here: zero entries), just as the float code would. -/
def Affine.inverse (m : Affine) : Affine :=
  let det := m.a * m.d - m.b * m.c
  ⟨Q.div m.d det, Q.div (-m.b) det, Q.div (-m.c) det, Q.div m.a det,
   Q.div (m.c * m.ty - m.d * m.tx) det,
   Q.div (m.b * m.tx - m.a * m.ty) det⟩

/-- Modelled from the spec: `Matrix4::isSimple` is not under `src/`;
the spec calls the mergeable transforms "simple (axis-aligned)", i.e.
free of rotation and skew. -/
def Affine.isSimple (m : Affine) : Bool :=
  m.b = 0 ∧ m.c = 0

/-- Modelled from the spec: `Matrix4::positiveScale` is not under
`src/`; positive diagonal entries mean no negative scale. -/
def Affine.positiveScale (m : Affine) : Bool :=
  0 < m.a ∧ 0 < m.d

/-- Light center, a 3-vector. -/
structure V3 where
  x : Q
  y : Q
  z : Q
deriving DecidableEq

/-- Modelled from the spec: `mapPoint3d` of a (2D-embedded) transform
maps the xy components and keeps z. -/
def Affine.mapPoint3d (m : Affine) (v : V3) : V3 :=
  let p := m.mapPoint v.x v.y
  ⟨p.1, p.2, v.z⟩

/-- Paint attributes read by the deferral engine. -/
structure PaintM where
  antiAlias : Bool
  pathEffect : Bool
  styleStroke : Bool
  strokeWidth : Q
  xfermodeSrcOver : Bool
  alpha : Q
deriving DecidableEq

/-- Bitmap attributes read by the deferral engine. -/
structure BitmapM where
  generationID : Nat
  isAlpha8 : Bool
deriving DecidableEq

/-- The closed batch enumeration of `OpBatchType`. -/
inductive OpBatchType where
  | Bitmap
  | MergedPatch
  | Patch
  | AlphaMaskTexture
  | Text
  | ColorText
  | Vertices
  | AlphaVertices
  | Shadow
  | Functor
  | TextureLayer
  | CopyToLayer
  | CopyFromLayer
deriving DecidableEq

/-- Clip modes of `ClipArea::ClipMode`. -/
inductive ClipMode where
  | Rectangle
  | RectangleList
  | Region
deriving DecidableEq

/-- Resolved clip of a baked op, pointed to by
`computedState.clipState` (null pointer = `none`). -/
structure ClipStateM where
  mode : ClipMode
  rect : Rect
deriving DecidableEq

/-- Resolved per-op state, as `BakedOpState.computedState`. -/
structure BakedM where
  transform : Affine
  clipState : Option ClipStateM
  clippedBounds : Rect
deriving DecidableEq

/-- The source predicate

`return state.computedState.clipState
    || state.computedState.clipState->mode == ClipMode::Rectangle;`

with C++ short-circuit evaluation: a non-null `clipState` makes the
first disjunct true, and a null `clipState` dereferences the null
pointer in the second disjunct — undefined behaviour, embedded as
`none`. -/
def hasMergeableClip (state : BakedM) : Option Bool :=
  match state.clipState with
  | some _ => some true
  | none => none

/-- Branch condition of `FrameBuilder::deferBitmapOp`: `some true`
means the op is deferred mergeable on batch `Bitmap` keyed by the
bitmap generation id, `some false` unmergeable, `none` the
null-`clipState` undefined behaviour inside `hasMergeableClip`.  The
first four conjuncts short-circuit exactly as in the source, so
`hasMergeableClip` is only consulted when they hold. -/
def bitmapMergeDecision (bakedState : BakedM) (paint : PaintM) (bitmap : BitmapM) : Option Bool :=
  if bakedState.transform.isSimple
      ∧ bakedState.transform.positiveScale
      ∧ paint.xfermodeSrcOver
      ∧ ¬bitmap.isAlpha8 then
    hasMergeableClip bakedState
  else
    some false

/-- Follows the words of claim C1 and of the spec's bitmap rule:
mergeable iff the transform is simple and positively scaled, the
xfermode is src-over, the bitmap is not A8, and the baked clip state is
rectangular, a null clip state counting as rectangular. -/
def specBitmapMergeable (bakedState : BakedM) (paint : PaintM) (bitmap : BitmapM) : Bool :=
  bakedState.transform.isSimple
    && bakedState.transform.positiveScale
    && paint.xfermodeSrcOver
    && !bitmap.isAlpha8
    && (match bakedState.clipState with
        | none => true
        | some c => decide (c.mode = ClipMode.Rectangle))

/-- Batch id for tessellatable shapes, as the source `tessBatchId`. -/
def tessBatchId (paint : PaintM) : OpBatchType :=
  if paint.pathEffect then OpBatchType.AlphaMaskTexture
  else if paint.antiAlias then OpBatchType.AlphaVertices
  else OpBatchType.Vertices

/-! ### Z-sorted children and shadow interleaving (`defer3dChildren`) -/

inductive ChildrenSelectMode where
  | Negative
  | Positive
deriving DecidableEq

/-- Emission of `defer3dChildren`: a shadow deferral for the caster at
the given index of the z-sorted list, or the draw of the child at the
given index. -/
inductive ZEvent where
  | shadow (i : Nat)
  | draw (i : Nat)
deriving DecidableEq

/-- First index whose z is non-negative, as the source
`findNonNegativeIndex` (the list size when all are negative). -/
def findNonNegativeIndex (zs : List Q) : Nat :=
  match zs.findIdx? (fun z => (0:Q) ≤ z) with
  | some i => i
  | none => zs.length

/-- The `while (shadowIndex < endIndex || drawIndex < endIndex)` loop
of `defer3dChildren`, emitting events in order.  Fuel bounds the
iteration count; `2 * endIndex + 1` always suffices since every
iteration increments one of the two indices, each bounded by
`endIndex`. -/
def defer3dLoop (zs : List Q) (endIndex : Nat) :
    Nat → Nat → Nat → Q → List ZEvent
  | 0, _, _, _ => []
  | fuel+1, shadowIndex, drawIndex, lastCasterZ =>
    if shadowIndex < endIndex ∨ drawIndex < endIndex then
      if shadowIndex < endIndex
          ∧ (shadowIndex = drawIndex ∨ zs.getD shadowIndex 0 - lastCasterZ < ⟨1, 10⟩) then
        ZEvent.shadow shadowIndex ::
          defer3dLoop zs endIndex fuel (shadowIndex + 1) drawIndex (zs.getD shadowIndex 0)
      else
        ZEvent.draw drawIndex ::
          defer3dLoop zs endIndex fuel shadowIndex (drawIndex + 1) lastCasterZ
    else []

/-- `FrameBuilder::defer3dChildren` over a z-sorted list of child z
values, returning the order of shadow and draw deferrals. -/
def defer3dChildren (mode : ChildrenSelectMode) (zs : List Q) : List ZEvent :=
  let size := zs.length
  if size = 0
      ∨ (mode = ChildrenSelectMode.Negative ∧ (0:Q) < zs.getD 0 0)
      ∨ (mode = ChildrenSelectMode.Positive ∧ zs.getD (size - 1) 0 < 0) then
    []
  else
    let nonNegativeIndex := findNonNegativeIndex zs
    match mode with
    | ChildrenSelectMode.Negative =>
        defer3dLoop zs nonNegativeIndex (2 * size + 1) nonNegativeIndex 0 0
    | ChildrenSelectMode.Positive =>
        defer3dLoop zs size (2 * size + 1) nonNegativeIndex nonNegativeIndex 0

/-! ### Shadow deferral (`deferShadow`) -/

/-- Path attributes the shadow pass reads.  The geometry itself stays
abstract: only emptiness and conservative bounds are modelled. -/
structure PathM where
  empty : Bool
  bounds : Rect
deriving DecidableEq

/-- Modelled from the spec: the boolean path-op intersection
(`Op(a, b, kIntersect_SkPathOp, out)` of `SkPathOps`, outside this
repository) intersects bounds; the result is empty when either operand
is or the bounds no longer meet. -/
def pathOpIntersect (p1 p2 : PathM) : PathM :=
  ⟨p1.empty ∨ p2.empty ∨ (p1.bounds.doIntersect p2.bounds).isEmpty,
   p1.bounds.doIntersect p2.bounds⟩

def pathFromRect (r : Rect) : PathM := ⟨r.isEmpty, r⟩

/-- Caster node properties read by `FrameBuilder::deferShadow`. -/
structure CasterProps where
  alpha : Q
  outlineAlpha : Q
  outlinePath : Option PathM
  scaleX : Q
  scaleY : Q
  revealClipPath : Option PathM
  clipToClipBounds : Bool
  clipBounds : Rect
deriving DecidableEq

/-- The shadow operation the engine would defer unmergeable on batch
`Shadow`. -/
structure ShadowOpM where
  casterAlpha : Q
  casterPath : PathM
deriving DecidableEq

/-- Modelled from the spec: `BakedOpState::tryShadowOpConstruct` is
not under `src/`; per spec §4.3 it bakes like an ordinary op but with
bounds from the caster outline, failing (null) when the clipped bounds
are empty.  The ambient/spot light extents are abstracted to the caster
path bounds. -/
def tryShadowOpConstruct (localClipBounds : Rect) (op : ShadowOpM) : Option ShadowOpM :=
  if (op.casterPath.bounds.doIntersect localClipBounds).isEmpty then none
  else some op

/-- `FrameBuilder::deferShadow`: `some op` means an unmergeable
`Shadow`-batch deferral of `op`; `none` means nothing is deferred
(either an early skip or a quick-rejected bake). -/
def deferShadow (localClipBounds : Rect) (p : CasterProps) : Option ShadowOpM :=
  if p.alpha ≤ 0 ∨ p.outlineAlpha ≤ 0 ∨ p.outlinePath = none
      ∨ p.scaleX = 0 ∨ p.scaleY = 0 then
    none
  else
    match p.outlinePath with
    | none => none
    | some casterOutlinePath =>
      match p.revealClipPath with
      | some revealClipPath =>
        if revealClipPath.empty then none
        else
          let casterAlpha := p.alpha * p.outlineAlpha
          let casterPath := pathOpIntersect casterOutlinePath revealClipPath
          let casterPath :=
            if p.clipToClipBounds then
              pathOpIntersect casterPath (pathFromRect p.clipBounds)
            else casterPath
          tryShadowOpConstruct localClipBounds ⟨casterAlpha, casterPath⟩
      | none =>
        let casterAlpha := p.alpha * p.outlineAlpha
        let casterPath :=
          if p.clipToClipBounds then
            pathOpIntersect casterOutlinePath (pathFromRect p.clipBounds)
          else casterOutlinePath
        tryShadowOpConstruct localClipBounds ⟨casterAlpha, casterPath⟩

/-! ### The frame state machine

`FrameBuilder` (in the source) drives a save/restore snapshot stack, a
stack of layer build targets and the per-layer defer streams.
`CanvasState`, `Snapshot` and the `BakedOpState` factories are not
under `src/`, so they are modelled from the spec (§4.2, §4.3); the
orchestration itself follows `FrameBuilder.cpp` line by line.  A
`LayerBuilder` is modelled by the ordered stream of defer events it
receives, which is the interface `FrameBuilder.cpp` drives. -/

/-- Round-rect clip attached to a snapshot by `setClippingRoundRect`. -/
structure RoundRectClipM where
  bounds : Rect
  radius : Q
deriving DecidableEq

/-- Snapshot of canvas state (spec §3): transform, clip (kept in
render-target space), alpha, light center, and the optional round-rect
or outline clipping masks. -/
structure Snapshot where
  transform : Affine
  clip : Rect
  alpha : Q
  relativeLightCenter : V3
  roundRectClipState : Option RoundRectClipM
  outlineClip : Bool
deriving DecidableEq

/-- One defer event received by a `LayerBuilder`:
`deferUnmergeableOp`, `deferMergeableOp` (with its merge key) or
`deferLayerClear`. -/
inductive LBEvent where
  | unmergeable (batch : OpBatchType) (bounds : Rect)
  | mergeable (batch : OpBatchType) (mergeId : Nat) (bounds : Rect)
  | layerClear (r : Rect)
deriving DecidableEq

/-- Common recorded-op data: `unmappedBounds`, `localMatrix`,
`localClip`, `paint`. -/
structure StdOpData where
  unmappedBounds : Rect
  localMatrix : Affine
  localClip : Option Rect
  paint : PaintM
deriving DecidableEq

/-- One layer build target, identified by its position in
`layerBuilders`.  `beginLayerData` is the associated `BeginLayerOp`
(none for the primary framebuffer and for update-queue layers);
`nodeId` the associated render node. -/
structure LayerBuilderM where
  width : Q
  height : Q
  repaintRect : Rect
  beginLayerData : Option StdOpData
  nodeId : Option Nat
  events : List LBEvent
  unclipped : List BakedM
deriving DecidableEq

/-- Render-node properties read by the deferral engine. -/
structure RenderProps where
  alpha : Q
  left : Q
  top : Q
  translationX : Q
  translationY : Q
  scaleX : Q
  scaleY : Q
  staticMatrix : Option Affine
  animationMatrix : Option Affine
  hasTransformMatrix : Bool
  transformTranslateOnly : Bool
  transformMatrix : Affine
  width : Int
  height : Int
  layerTypeNotNone : Bool
  hasOverlappingRendering : Bool
  clipToBounds : Bool
  clipToClipBounds : Bool
  clipBounds : Rect
  revealWillClip : Bool
  revealBounds : Rect
  revealRadius : Q
  outlineShouldClip : Bool
  outlineIsEmpty : Bool
  outlineWillClip : Bool
deriving DecidableEq

mutual
inductive RenderNode where
  | mk (nodeId : Nat) (props : RenderProps) (hwLayer : Bool) (nothingToDraw : Bool)
      (invTransformInWindow : Affine) (displayList : Option DisplayList)
inductive DisplayList where
  | mk (ops : List DLOp)
inductive DLOp where
  | bitmapOp (d : StdOpData) (bitmap : BitmapM)
  | rectOp (d : StdOpData)
  | roundRectOp (d : StdOpData)
  | ovalOp (d : StdOpData)
  | arcOp (d : StdOpData)
  | pathOp (d : StdOpData)
  | simpleRectsOp (d : StdOpData)
  | renderNodeOp (localMatrix : Affine) (localClip : Option Rect) (skipInOrderDraw : Bool)
      (node : RenderNode)
  | beginLayerOp (d : StdOpData)
  | endLayerOp
  | beginUnclippedLayerOp (d : StdOpData)
  | endUnclippedLayerOp
end

def RenderNode.nodeId : RenderNode → Nat
  | .mk i _ _ _ _ _ => i

def RenderNode.props : RenderNode → RenderProps
  | .mk _ p _ _ _ _ => p

def RenderNode.hwLayer : RenderNode → Bool
  | .mk _ _ hw _ _ _ => hw

def RenderNode.nothingToDraw : RenderNode → Bool
  | .mk _ _ _ ntd _ _ => ntd

def RenderNode.invTransformInWindow : RenderNode → Affine
  | .mk _ _ _ _ m _ => m

def RenderNode.displayList : RenderNode → Option DisplayList
  | .mk _ _ _ _ _ dl => dl

/-- Op list of the node's display list (empty when absent; the source
asserts the display list non-null at the points this is read). -/
def nodeOpsList : RenderNode → List DLOp
  | .mk _ _ _ _ _ (some (.mk ops)) => ops
  | .mk _ _ _ _ _ none => []

/-- Whole engine state: the snapshot save stack (head = current), the
ordered layer builders, and the layer target stack of indices into
them (head = current target). -/
structure FrameState where
  saveStack : List Snapshot
  layerBuilders : List LayerBuilderM
  layerStack : List Nat
deriving DecidableEq

def dfltSnapshot : Snapshot :=
  ⟨Affine.identM, ⟨0, 0, 0, 0⟩, 1, ⟨0, 0, 0⟩, none, false⟩

def curSnap (s : FrameState) : Snapshot := s.saveStack.headD dfltSnapshot

def setSnap (f : Snapshot → Snapshot) (s : FrameState) : FrameState :=
  match s.saveStack with
  | [] => s
  | h :: t => { s with saveStack := f h :: t }

/-- Push a copy of the current snapshot, as `CanvasState::save`
(modelled from the spec; the save flags always cover matrix and clip
at the call sites of the deferral engine). -/
def canvasSave (s : FrameState) : FrameState :=
  { s with saveStack := curSnap s :: s.saveStack }

/-- Pop one snapshot; popping past the initial snapshot is the fatal
restore-below-depth error. -/
def restoreF (s : FrameState) : Option FrameState :=
  match s.saveStack with
  | [] => none
  | [_] => none
  | _ :: t => some { s with saveStack := t }

/-- Pop snapshots until the stack depth equals `count`, as
`CanvasState::restoreToCount`. -/
def restoreToCount (count : Nat) (s : FrameState) : FrameState :=
  { s with saveStack := s.saveStack.drop (s.saveStack.length - count) }

/-- Canvas translate acting on the current snapshot, as
`CanvasState::translate`. -/
def Snapshot.translateS (sn : Snapshot) (dx dy : Q) : Snapshot :=
  { sn with transform := sn.transform.translateBy dx dy }

/-- Canvas matrix concat acting on the current snapshot, as
`CanvasState::concatMatrix`. -/
def Snapshot.concatS (sn : Snapshot) (m : Affine) : Snapshot :=
  { sn with transform := sn.transform.mul m }

/-- Alpha scaling on the current snapshot, as `CanvasState::scaleAlpha`. -/
def Snapshot.scaleAlphaS (sn : Snapshot) (a : Q) : Snapshot :=
  { sn with alpha := sn.alpha * a }

/-- Intersect the clip with a rectangle given in local coordinates, as
`CanvasState::clipRect` under `kIntersect_Op` (modelled from the spec:
the clip is kept in render-target space). -/
def Snapshot.clipRectIntersectS (sn : Snapshot) (r : Rect) : Snapshot :=
  { sn with clip := sn.clip.doIntersect (sn.transform.mapRect r) }

/-- Apply a recorded op's local clip to the snapshot clip, transformed
by the current matrix, as `mutateClipArea().applyClip`. -/
def Snapshot.applyLocalClipS (sn : Snapshot) (localClip : Option Rect) : Snapshot :=
  match localClip with
  | none => sn
  | some c => sn.clipRectIntersectS c

def Snapshot.setRoundRectClipS (sn : Snapshot) (bounds : Rect) (radius : Q) : Snapshot :=
  { sn with roundRectClipState := some ⟨bounds, radius⟩ }

def Snapshot.setOutlineClipS (sn : Snapshot) : Snapshot :=
  { sn with outlineClip := true }

/-- Modelled from the spec: `CanvasState::quickRejectConservative`
returns true iff the bounds provably lie outside the clip; the mapped
bounds are first snapped outward to pixel boundaries, which is what
makes the test conservative with respect to the exact bake. -/
def quickRejectConservative (sn : Snapshot) (r : Rect) : Bool :=
  (((sn.transform.mapRect r).roundOut).doIntersect sn.clip).isEmpty

def currentLayerIdx (s : FrameState) : Nat := s.layerStack.headD 0

def currentBuilder (s : FrameState) : Option LayerBuilderM :=
  s.layerBuilders[currentLayerIdx s]?

/-- Update the layer builder at index `i` in place (no-op on an
invalid index, which the source would treat as undefined behaviour and
which never occurs on reachable states). -/
def modifyAt (s : FrameState) (i : Nat) (f : LayerBuilderM → LayerBuilderM) : FrameState :=
  match s.layerBuilders[i]? with
  | none => s
  | some lb => { s with layerBuilders := s.layerBuilders.set i (f lb) }

/-- Update the current layer builder in place. -/
def modifyCurrent (s : FrameState) (f : LayerBuilderM → LayerBuilderM) : FrameState :=
  modifyAt s (currentLayerIdx s) f

/-- Append a defer event to the current layer builder. -/
def appendCurrentEvent (s : FrameState) (e : LBEvent) : FrameState :=
  modifyCurrent s (fun lb => { lb with events := lb.events ++ [e] })

/-- Push a pending copy-from op onto the current layer builder's
`activeUnclippedSaveLayers` stack. -/
def pushUnclippedCurrent (s : FrameState) (b : BakedM) : FrameState :=
  modifyCurrent s (fun lb => { lb with unclipped := b :: lb.unclipped })

/-- Empty a finished layer builder's batches, as `LayerBuilder::clear`. -/
def clearBuilder (s : FrameState) (i : Nat) : FrameState :=
  modifyAt s i (fun lb => { lb with events := [] })

/-- Modelled from the spec (§4.3): `tryBakeOpState` maps
`unmappedBounds` through `snapshot.transform ∘ localMatrix`, resolves
the op's local clip against the snapshot clip, and fails (null) when
the clipped bounds come out empty. -/
def tryBakeOpState (sn : Snapshot) (d : StdOpData) : Option BakedM :=
  let total := sn.transform.mul d.localMatrix
  let clip :=
    match d.localClip with
    | some c => sn.clip.doIntersect (sn.transform.mapRect c)
    | none => sn.clip
  let clippedBounds := (total.mapRect d.unmappedBounds).doIntersect clip
  if clippedBounds.isEmpty then none
  else some ⟨total, some ⟨ClipMode.Rectangle, clip⟩, clippedBounds⟩

/-- Modelled from the spec (§4.3): the strokeable factory outsets the
unmapped bounds by the paint's stroke width when the stroke is forced
or the paint style strokes. -/
def tryStrokeableOpConstruct (sn : Snapshot) (d : StdOpData) (forced : Bool) : Option BakedM :=
  let outsetBy := if forced ∨ d.paint.styleStroke then d.paint.strokeWidth else 0
  tryBakeOpState sn { d with unmappedBounds := d.unmappedBounds.outset outsetBy }

def dfltPaint : PaintM := ⟨false, false, false, 0, true, 1⟩

/-- Paint carrying only the node alpha, as the `saveLayerPaint` built
in `deferNodePropsAndOps`. -/
def saveLayerPaint (a : Q) : PaintM := ⟨false, false, false, 0, true, a⟩

/-- Recorded-op data of the `LayerOp` emitted for a node with a
persistent HW layer: the node bounds under the identity local matrix
and no local clip. -/
def layerOpData (p : RenderProps) : StdOpData :=
  ⟨Rect.sized (Q.ofInt p.width) (Q.ofInt p.height), Affine.identM, none, dfltPaint⟩

def tryBakeLayerOp (sn : Snapshot) (n : RenderNode) : Option BakedM :=
  tryBakeOpState sn (layerOpData n.props)

/-- `FrameBuilder::deferStrokeableOp`: bake with stroke accounting,
quick-reject on failure, else defer unmergeable with the given batch. -/
def deferStrokeableOp (s : FrameState) (d : StdOpData) (batchId : OpBatchType)
    (forced : Bool) : FrameState :=
  match tryStrokeableOpConstruct (curSnap s) d forced with
  | none => s
  | some bakedState => appendCurrentEvent s (LBEvent.unmergeable batchId bakedState.clippedBounds)

/-- `FrameBuilder::deferBitmapOp`.  The `none` result is the undefined
behaviour of `hasMergeableClip` on a null clip state. -/
def deferBitmapOp (s : FrameState) (d : StdOpData) (bitmap : BitmapM) : Option FrameState :=
  match tryBakeOpState (curSnap s) d with
  | none => some s
  | some bakedState =>
    match bitmapMergeDecision bakedState d.paint bitmap with
    | none => none
    | some true =>
      some (appendCurrentEvent s
        (LBEvent.mergeable OpBatchType.Bitmap bitmap.generationID bakedState.clippedBounds))
    | some false =>
      some (appendCurrentEvent s (LBEvent.unmergeable OpBatchType.Bitmap bakedState.clippedBounds))

/-- `FrameBuilder::deferSimpleRectsOp`. -/
def deferSimpleRectsOp (s : FrameState) (d : StdOpData) : FrameState :=
  match tryBakeOpState (curSnap s) d with
  | none => s
  | some bakedState =>
    appendCurrentEvent s (LBEvent.unmergeable OpBatchType.Vertices bakedState.clippedBounds)

/-- `FrameBuilder::saveForLayer`: push a fresh snapshot (translation
transform, repaint-rect clip, cleared round-rect clip, given light
center), push the index of a new layer builder, and append it. -/
def saveForLayer (s : FrameState) (layerWidth layerHeight : Q)
    (contentTranslateX contentTranslateY : Q) (repaintRect : Rect)
    (lightCenter : V3) (beginLayerData : Option StdOpData) (nodeId : Option Nat) : FrameState :=
  let s1 := canvasSave s
  let s2 := setSnap (fun sn =>
    { sn with
      transform := Affine.translation contentTranslateX contentTranslateY,
      roundRectClipState := none,
      relativeLightCenter := lightCenter,
      clip := repaintRect }) s1
  { s2 with
    layerStack := s2.layerBuilders.length :: s2.layerStack,
    layerBuilders :=
      s2.layerBuilders ++ [⟨layerWidth, layerHeight, repaintRect, beginLayerData, nodeId, [], []⟩] }

/-- `FrameBuilder::restoreForLayer`: restore the canvas and pop the
finished layer index. -/
def restoreForLayer (s : FrameState) : Option FrameState :=
  (restoreF s).bind fun s1 =>
    match s1.layerStack with
    | [] => none
    | _ :: t => some { s1 with layerStack := t }

/-- `FrameBuilder::deferBeginLayerOp`: clip the temporary layer's
bounds against the parent render-target clip (transform to parent
space, intersect, transform back, intersect with the layer rect, round
out), then `saveForLayer` with the reduced size and the content
translation compensating the left/top clipping. -/
def deferBeginLayerOp (s : FrameState) (d : StdOpData) : FrameState :=
  let layerWidth := d.unmappedBounds.getWidth
  let layerHeight := d.unmappedBounds.getHeight
  let previous := curSnap s
  let lightCenter := previous.relativeLightCenter
  let contentTransform :=
    (previous.transform.mul d.localMatrix).translateBy d.unmappedBounds.left d.unmappedBounds.top
  let inverseContentTransform := contentTransform.inverse
  let lightCenter := inverseContentTransform.mapPoint3d lightCenter
  let saveLayerBounds := Rect.sized layerWidth layerHeight
  let saveLayerBounds := contentTransform.mapRect saveLayerBounds
  let saveLayerBounds := saveLayerBounds.doIntersect previous.clip
  let saveLayerBounds := inverseContentTransform.mapRect saveLayerBounds
  let saveLayerBounds := saveLayerBounds.doIntersect (Rect.sized layerWidth layerHeight)
  let saveLayerBounds := saveLayerBounds.roundOut
  let layerWidth := saveLayerBounds.getWidth
  let layerHeight := saveLayerBounds.getHeight
  let contentTranslateX := -saveLayerBounds.left
  let contentTranslateY := -saveLayerBounds.top
  saveForLayer s layerWidth layerHeight contentTranslateX contentTranslateY
    (Rect.sized layerWidth layerHeight) lightCenter (some d) none

/-- `FrameBuilder::deferEndLayerOp`: pop the finished layer, bake a
`LayerOp` carrying the begin op's state against the restored parent
snapshot, and either defer it unmergeable on batch `Bitmap` into the
parent or, when it quick-rejects, clear the finished layer.  A missing
`beginLayerOp` (primary framebuffer on top) is the fatal
end-without-begin error. -/
def deferEndLayerOp (s : FrameState) : Option FrameState :=
  match currentBuilder s with
  | none => none
  | some lb =>
    match lb.beginLayerData with
    | none => none
    | some beginData =>
      let finishedLayerIndex := currentLayerIdx s
      (restoreForLayer s).bind fun s2 =>
        match tryBakeOpState (curSnap s2) beginData with
        | some bakedOpState =>
          some (appendCurrentEvent s2
            (LBEvent.unmergeable OpBatchType.Bitmap bakedOpState.clippedBounds))
        | none => some (clearBuilder s2 finishedLayerIndex)

/-- `FrameBuilder::deferBeginUnclippedLayerOp`: compute `dstRect` (the
op bounds under the current transform intersected with the
render-target clip), defer a `CopyToLayer` op and a layer clear over
it, and stash the matching `CopyFromLayer` op on the active stack. -/
def deferBeginUnclippedLayerOp (s : FrameState) (d : StdOpData) : FrameState :=
  let sn := curSnap s
  let boundsTransform := sn.transform.mul d.localMatrix
  let dstRect := (boundsTransform.mapRect d.unmappedBounds).doIntersect sn.clip
  let viewportClip :=
    match currentBuilder s with
    | some lb => Rect.sized lb.width lb.height
    | none => Rect.sized 0 0
  let s1 := appendCurrentEvent s (LBEvent.unmergeable OpBatchType.CopyToLayer dstRect)
  let s2 := appendCurrentEvent s1 (LBEvent.layerClear dstRect)
  pushUnclippedCurrent s2 ⟨Affine.identM, some ⟨ClipMode.Rectangle, viewportClip⟩, dstRect⟩

/-- `FrameBuilder::deferEndUnclippedLayerOp`: fatal when the current
layer's active stack is empty; otherwise pop the stashed op and defer
it unmergeable on batch `CopyFromLayer`. -/
def deferEndUnclippedLayerOp (s : FrameState) : Option FrameState :=
  match currentBuilder s with
  | none => none
  | some lb =>
    match lb.unclipped with
    | [] => none
    | copyFromLayerOp :: rest =>
      let lb2 : LayerBuilderM :=
        { lb with
          events := lb.events ++
            [LBEvent.unmergeable OpBatchType.CopyFromLayer copyFromLayerOp.clippedBounds],
          unclipped := rest }
      some { s with layerBuilders := s.layerBuilders.set (currentLayerIdx s) lb2 }

/-- Modelled from the spec: `RenderProperties::getClippingRectForFlags`
resolves the node's clip flags to a rectangle — the node bounds for
`CLIP_TO_BOUNDS`, intersected with the clip-bounds rect for
`CLIP_TO_CLIP_BOUNDS`. -/
def getClippingRectForFlags (p : RenderProps) (ctb ctcb : Bool) : Rect :=
  if ctb then
    if ctcb then (Rect.sized (Q.ofInt p.width) (Q.ofInt p.height)).doIntersect p.clipBounds
    else Rect.sized (Q.ofInt p.width) (Q.ofInt p.height)
  else p.clipBounds

/-- Property application of `deferNodePropsAndOps` (source lines
95-153): translation, matrices, alpha handling with the possible
save-layer scheduling, surviving clip flags, and the reveal/outline
clipping masks.  All of these act on the current snapshot; the result
pairs the mutated snapshot with the scheduled `saveLayerBounds`
(empty when no save-layer is needed). -/
def applyNodeProps (sn : Snapshot) (p : RenderProps) : Snapshot × Rect :=
  let sn := if ¬(p.left = 0) ∨ ¬(p.top = 0) then sn.translateS p.left p.top else sn
  let sn :=
    match p.staticMatrix with
    | some m => sn.concatS m
    | none =>
      match p.animationMatrix with
      | some m => sn.concatS m
      | none => sn
  let sn :=
    if p.hasTransformMatrix then
      if p.transformTranslateOnly then sn.translateS p.translationX p.translationY
      else sn.concatS p.transformMatrix
    else sn
  let isLayer := p.layerTypeNotNone
  let sr :=
    if p.alpha < 1 then
      let ctb := if isLayer then false else p.clipToBounds
      if isLayer ∨ ¬p.hasOverlappingRendering then
        (sn.scaleAlphaS p.alpha, (⟨0, 0, 0, 0⟩ : Rect), ctb, p.clipToClipBounds)
      else
        if ctb ∨ p.clipToClipBounds then
          (sn, getClippingRectForFlags p ctb p.clipToClipBounds, false, false)
        else
          (sn, Rect.sized (Q.ofInt p.width) (Q.ofInt p.height), ctb, p.clipToClipBounds)
    else (sn, (⟨0, 0, 0, 0⟩ : Rect), p.clipToBounds, p.clipToClipBounds)
  let sn := sr.1
  let saveLayerBounds := sr.2.1
  let ctb := sr.2.2.1
  let ctcb := sr.2.2.2
  let sn := if ctb ∨ ctcb then sn.clipRectIntersectS (getClippingRectForFlags p ctb ctcb) else sn
  let sn :=
    if p.revealWillClip then sn.setRoundRectClipS p.revealBounds p.revealRadius
    else if p.outlineWillClip then sn.setOutlineClipS
    else sn
  (sn, saveLayerBounds)

/-- Task selector of the interpreter: a display-list segment
(`deferNodeOps` body), a single recorded op (the dispatch table), or a
node (`deferNodePropsAndOps`). -/
inductive FTask where
  | opsList (l : List DLOp)
  | oneOp (op : DLOp)
  | nodePropsAndOps (n : RenderNode)

/-- Fuel-indexed interpreter of the deferral engine.  Fuel only bounds
the recursion depth through render nodes and op lists; `none` is
either fuel exhaustion or one of the fatal errors of the modelled
functions. -/
def run : Nat → FrameState → FTask → Option FrameState
  | 0, _, _ => none
  | fuel+1, s, t =>
    match t with
    | .opsList l => l.foldlM (fun st op => run fuel st (.oneOp op)) s
    | .oneOp op =>
      match op with
      | .bitmapOp d bitmap => deferBitmapOp s d bitmap
      | .rectOp d => some (deferStrokeableOp s d (tessBatchId d.paint) false)
      | .roundRectOp d => some (deferStrokeableOp s d (tessBatchId d.paint) false)
      | .ovalOp d => some (deferStrokeableOp s d (tessBatchId d.paint) false)
      | .arcOp d => some (deferStrokeableOp s d (tessBatchId d.paint) false)
      | .pathOp d => some (deferStrokeableOp s d OpBatchType.Bitmap false)
      | .simpleRectsOp d => some (deferSimpleRectsOp s d)
      | .renderNodeOp localMatrix localClip skipInOrderDraw node =>
        if skipInOrderDraw then some s
        else if node.nothingToDraw then some s
        else
          let count := s.saveStack.length
          let s1 := setSnap (fun sn => (sn.applyLocalClipS localClip).concatS localMatrix)
            (canvasSave s)
          (run fuel s1 (.nodePropsAndOps node)).map (restoreToCount count)
      | .beginLayerOp d => some (deferBeginLayerOp s d)
      | .endLayerOp => deferEndLayerOp s
      | .beginUnclippedLayerOp d => some (deferBeginUnclippedLayerOp s d)
      | .endUnclippedLayerOp => deferEndUnclippedLayerOp s
    | .nodePropsAndOps n =>
      let p := n.props
      if p.alpha ≤ 0 ∨ (p.outlineShouldClip ∧ p.outlineIsEmpty)
          ∨ p.scaleX = 0 ∨ p.scaleY = 0 then
        some s
      else
        let pr := applyNodeProps (curSnap s) p
        let s1 := setSnap (fun _ => pr.1) s
        let saveLayerBounds := pr.2
        if quickRejectConservative pr.1 (Rect.sized (Q.ofInt p.width) (Q.ofInt p.height)) then
          some s1
        else if n.hwLayer then
          match tryBakeLayerOp pr.1 n with
          | some bakedOpState =>
            some (appendCurrentEvent s1
              (LBEvent.unmergeable OpBatchType.Bitmap bakedOpState.clippedBounds))
          | none => some s1
        else if ¬ saveLayerBounds.isEmpty then
          let s2 := deferBeginLayerOp s1
            ⟨saveLayerBounds, Affine.identM, none, saveLayerPaint p.alpha⟩
          (run fuel s2 (.opsList (nodeOpsList n))).bind deferEndLayerOp
        else
          run fuel s1 (.opsList (nodeOpsList n))

/-- One entry of the `LayerUpdateQueue`. -/
structure LayerEntry where
  renderNode : RenderNode
  damage : Rect

/-- Body of the reverse-order loop of the `FrameBuilder` constructor
for one layer-update entry: map the light center into the node's
space, `saveForLayer`, defer the node's ops when it has a display
list, `restoreForLayer`. -/
def processLayerEntry (fuel : Nat) (s : FrameState) (e : LayerEntry) : Option FrameState :=
  let lightCenter :=
    e.renderNode.invTransformInWindow.mapPoint3d (curSnap s).relativeLightCenter
  let p := e.renderNode.props
  let s1 := saveForLayer s (Q.ofInt p.width) (Q.ofInt p.height) 0 0 e.damage lightCenter
    none (some e.renderNode.nodeId)
  (match e.renderNode.displayList with
   | some (.mk ops) => run fuel s1 (.opsList ops)
   | none => some s1).bind restoreForLayer

/-- Initial engine state: the primary framebuffer builder at index 0,
layer stack `[0]`, and the root snapshot from
`initializeSaveStack`. -/
def initFrameState (clip : Rect) (vpWidth vpHeight : Q) (lightCenter : V3) : FrameState :=
  { saveStack := [⟨Affine.identM, clip, 1, lightCenter, none, false⟩],
    layerBuilders := [⟨vpWidth, vpHeight, clip, none, none, [], []⟩],
    layerStack := [0] }

/-- The `FrameBuilder` constructor: initialize, process the
layer-update entries in reverse order, then defer each root node
(skipping `nothingToDraw` nodes) wrapped in a save/restoreToCount
pair. -/
def frameBuild (fuel : Nat) (layers : List LayerEntry) (clip : Rect)
    (vpWidth vpHeight : Q) (nodes : List RenderNode) (lightCenter : V3) : Option FrameState :=
  (layers.reverse.foldlM (processLayerEntry fuel)
      (initFrameState clip vpWidth vpHeight lightCenter)).bind fun s =>
    nodes.foldlM (fun st n =>
      if n.nothingToDraw then some st
      else
        let count := st.saveStack.length
        (run fuel (canvasSave st) (.nodePropsAndOps n)).map (restoreToCount count)) s

/-! ### Shared concrete fixtures -/

/-- Opaque src-over paint without antialiasing, path effect or stroke. -/
def basePaint : PaintM := ⟨false, false, false, 0, true, 1⟩

def baseClip : Rect := ⟨0, 0, 100, 100⟩

/-- Primary-framebuffer-only initial state over a 100×100 viewport. -/
def baseState : FrameState := initFrameState baseClip 100 100 ⟨50, 50, 200⟩

/-! ### C1 — bitmap merge decision -/

/-- Baked state whose clip is resolved but not rectangular. -/
def c1RegionBaked : BakedM :=
  ⟨Affine.identM, some ⟨ClipMode.Region, ⟨0, 0, 50, 50⟩⟩, ⟨0, 0, 50, 50⟩⟩

/-- Baked state with a null clip state. -/
def c1NullClipBaked : BakedM := ⟨Affine.identM, none, ⟨0, 0, 50, 50⟩⟩

def c1Bitmap : BitmapM := ⟨7, false⟩

/-- C1: the claim (and spec intent) says `deferBitmapOp` defers a
surviving bitmap op mergeable iff the transform is simple and
positively scaled, the xfermode src-over, the bitmap not A8, and the
baked clip state rectangular (null counting as rectangular).  The code
disagrees: its `hasMergeableClip` tests the `clipState` pointer itself
before the `||`, so a resolved but non-rectangular (Region-mode) clip
still merges (first conjunct below, against the spec predicate in the
second), and a null clip state — mergeable per the claim — dereferences
null instead of merging (third and fourth conjuncts). -/
theorem bitmapMergeDecision_clip_code_bug :
    bitmapMergeDecision c1RegionBaked basePaint c1Bitmap = some true
    ∧ specBitmapMergeable c1RegionBaked basePaint c1Bitmap = false
    ∧ bitmapMergeDecision c1NullClipBaked basePaint c1Bitmap = none
    ∧ specBitmapMergeable c1NullClipBaked basePaint c1Bitmap = true := by
  decide

/-! ### C2 — shadow interleaving of `defer3dChildren` -/

/-- C2: in the positive phase loop, a shadow for
`zChildren[shadowIndex]` is emitted before any further draw exactly
when `shadowIndex = drawIndex` or
`zChildren[shadowIndex].z - lastCasterZ < 0.1`; and on the concrete
scenario of two children at z = 2.0 and z = 2.05 both shadows are
emitted before either body is drawn. -/
theorem defer3dChildren_shadow_interleaving :
    (∀ (zs : List Q) (endIndex fuel shadowIndex drawIndex : Nat) (lastCasterZ : Q),
        shadowIndex < endIndex →
        ((defer3dLoop zs endIndex (fuel + 1) shadowIndex drawIndex lastCasterZ).head? =
            some (ZEvent.shadow shadowIndex) ↔
          (shadowIndex = drawIndex ∨ zs.getD shadowIndex 0 - lastCasterZ < ⟨1, 10⟩)))
    ∧ defer3dChildren ChildrenSelectMode.Positive [⟨2, 1⟩, ⟨41, 20⟩] =
        [ZEvent.shadow 0, ZEvent.shadow 1, ZEvent.draw 0, ZEvent.draw 1] := by
  constructor
  · intro zs endIndex fuel si di lastZ h
    by_cases hc : si = di ∨ zs.getD si 0 - lastZ < ⟨1, 10⟩
    · simp only [defer3dLoop, if_pos (Or.inl h), if_pos (And.intro h hc)]
      exact iff_of_true rfl hc
    · rw [defer3dLoop, if_pos (Or.inl h), if_neg (fun hand => hc hand.2)]
      exact iff_of_false (by simp) hc
  · decide

/-- Witness for C2: the step rule applied at the first loop state of
the z = 2.0 / 2.05 scenario. -/
theorem defer3dChildren_shadow_interleaving_witness :
    (0 < 2
      ∧ ((defer3dLoop [⟨2, 1⟩, ⟨41, 20⟩] 2 1 0 0 0).head? = some (ZEvent.shadow 0) ↔
          (0 = 0 ∨ ([⟨2, 1⟩, ⟨41, 20⟩] : List Q).getD 0 0 - 0 < ⟨1, 10⟩))) :=
  ⟨by decide,
   defer3dChildren_shadow_interleaving.1 [⟨2, 1⟩, ⟨41, 20⟩] 2 0 0 0 0 (by decide)⟩

/-! ### C9 — empty reveal clip skips the shadow -/

/-- C9: beyond the alpha/outline/scale guards, `deferShadow` defers
nothing whenever the caster carries a reveal-clip path that is empty. -/
theorem deferShadow_empty_reveal_skips :
    ∀ (localClipBounds : Rect) (p : CasterProps) (rp : PathM),
      p.revealClipPath = some rp → rp.empty = true →
      deferShadow localClipBounds p = none := by
  intro clipB p rp hrev hempty
  obtain ⟨alpha, oalpha, opath, sx, sy, rpath, ctcb, cb⟩ := p
  simp only [CasterProps.revealClipPath] at hrev
  subst hrev
  simp only [deferShadow]
  split
  · rfl
  · cases opath with
    | none => rfl
    | some co => simp [hempty]

/-- Caster that passes every other shadow guard but has an empty
reveal-clip path. -/
def c9Caster : CasterProps :=
  ⟨1, 1, some ⟨false, ⟨0, 0, 10, 10⟩⟩, 1, 1, some ⟨true, ⟨0, 0, 0, 0⟩⟩, false, ⟨0, 0, 0, 0⟩⟩

/-- Witness for C9. -/
theorem deferShadow_empty_reveal_skips_witness :
    c9Caster.revealClipPath = some ⟨true, ⟨0, 0, 0, 0⟩⟩
    ∧ deferShadow ⟨0, 0, 100, 100⟩ c9Caster = none :=
  ⟨by decide,
   deferShadow_empty_reveal_skips ⟨0, 0, 100, 100⟩ c9Caster ⟨true, ⟨0, 0, 0, 0⟩⟩
     (by decide) (by decide)⟩

/-! ### C3 — batch id of path ops -/

def c3PathData : StdOpData := ⟨⟨12, 12, 18, 18⟩, Affine.identM, none, basePaint⟩

/-- Counterexample to C3: a `PathOp` whose paint has no path effect
and no antialiasing is deferred with batch id `Bitmap`, not the
`Vertices` the claim requires for such a paint. -/
theorem deferPathOp_batch_counterexample :
    (run 2 baseState (FTask.oneOp (DLOp.pathOp c3PathData))).map
        (fun s => s.layerBuilders.map (fun lb => lb.events)) =
      some [[LBEvent.unmergeable OpBatchType.Bitmap ⟨12, 12, 18, 18⟩]]
    ∧ tessBatchId basePaint = OpBatchType.Vertices
    ∧ OpBatchType.Bitmap ≠ OpBatchType.Vertices := by
  decide

/-- C3 (amended): rect, round-rect, oval and arc ops are deferred via
`deferStrokeableOp` with batch id `AlphaMaskTexture` when the paint
has a path effect, else `AlphaVertices` when anti-aliased, else
`Vertices`; a `PathOp` is instead deferred with batch id `Bitmap`; and
every such deferral is unmergeable (it either quick-rejects or appends
an unmergeable event of its batch). -/
theorem deferPathOp_batch_amended :
    (∀ paint : PaintM,
        tessBatchId paint =
          (if paint.pathEffect then OpBatchType.AlphaMaskTexture
           else if paint.antiAlias then OpBatchType.AlphaVertices
           else OpBatchType.Vertices))
    ∧ (∀ (fuel : Nat) (s : FrameState) (d : StdOpData),
        run (fuel + 1) s (FTask.oneOp (DLOp.pathOp d)) =
            some (deferStrokeableOp s d OpBatchType.Bitmap false)
        ∧ run (fuel + 1) s (FTask.oneOp (DLOp.rectOp d)) =
            some (deferStrokeableOp s d (tessBatchId d.paint) false)
        ∧ run (fuel + 1) s (FTask.oneOp (DLOp.roundRectOp d)) =
            some (deferStrokeableOp s d (tessBatchId d.paint) false)
        ∧ run (fuel + 1) s (FTask.oneOp (DLOp.ovalOp d)) =
            some (deferStrokeableOp s d (tessBatchId d.paint) false)
        ∧ run (fuel + 1) s (FTask.oneOp (DLOp.arcOp d)) =
            some (deferStrokeableOp s d (tessBatchId d.paint) false))
    ∧ (∀ (s : FrameState) (d : StdOpData) (b : OpBatchType) (f : Bool),
        deferStrokeableOp s d b f = s
        ∨ ∃ r, deferStrokeableOp s d b f = appendCurrentEvent s (LBEvent.unmergeable b r)) := by
  refine ⟨fun paint => rfl, fun fuel s d => ⟨rfl, rfl, rfl, rfl, rfl⟩, fun s d b f => ?_⟩
  unfold deferStrokeableOp
  cases tryStrokeableOpConstruct (curSnap s) d f with
  | none => exact Or.inl rfl
  | some bs => exact Or.inr ⟨bs.clippedBounds, rfl⟩

/-! ### Small state lemmas -/

theorem setSnap_layerBuilders (f : Snapshot → Snapshot) (s : FrameState) :
    (setSnap f s).layerBuilders = s.layerBuilders := by
  unfold setSnap
  split <;> rfl

theorem setSnap_layerStack (f : Snapshot → Snapshot) (s : FrameState) :
    (setSnap f s).layerStack = s.layerStack := by
  unfold setSnap
  split <;> rfl

theorem setSnap_saveStack_length (f : Snapshot → Snapshot) (s : FrameState) :
    (setSnap f s).saveStack.length = s.saveStack.length := by
  unfold setSnap
  split
  · rfl
  · simp_all

/-- Undoing a save/mutate pair: `restoreToCount` at the pre-save depth
recovers the original state whatever the top-snapshot mutation was. -/
theorem restore_setSnap_save (g : Snapshot → Snapshot) (s : FrameState) :
    restoreToCount s.saveStack.length (setSnap g (canvasSave s)) = s := by
  cases s with
  | mk ss lbs lst => simp [canvasSave, setSnap, curSnap, restoreToCount]

/-! ### C8 — EndUnclippedLayerOp pops exactly one entry -/

/-- State after a successful `deferEndUnclippedLayerOp`: only the
current builder changes, gaining the `CopyFromLayer` event of the
popped entry and losing that entry from its active stack. -/
def popUnclippedState (s : FrameState) (lb : LayerBuilderM) (x : BakedM)
    (rest : List BakedM) : FrameState :=
  let lb2 : LayerBuilderM :=
    { lb with
      events := lb.events ++ [LBEvent.unmergeable OpBatchType.CopyFromLayer x.clippedBounds],
      unclipped := rest }
  { s with layerBuilders := s.layerBuilders.set (currentLayerIdx s) lb2 }

/-- C8: `deferEndUnclippedLayerOp` aborts fatally iff the current
layer builder's `activeUnclippedSaveLayers` stack is empty; when it is
non-empty, exactly the top entry is popped and deferred on batch
`CopyFromLayer`, with everything else (save stack, layer stack, other
builders, the remaining fields of the current builder) unchanged, the
final conjunct tying the interpreter's `EndUnclippedLayerOp` dispatch
to this function. -/
theorem deferEndUnclippedLayerOp_spec :
    ∀ (s : FrameState) (lb : LayerBuilderM), currentBuilder s = some lb →
      ((deferEndUnclippedLayerOp s = none ↔ lb.unclipped = [])
       ∧ (∀ (x : BakedM) (rest : List BakedM), lb.unclipped = x :: rest →
           deferEndUnclippedLayerOp s = some (popUnclippedState s lb x rest))
       ∧ (∀ fuel : Nat, run (fuel + 1) s (FTask.oneOp DLOp.endUnclippedLayerOp) =
           deferEndUnclippedLayerOp s)) := by
  intro s lb h
  refine ⟨?_, ?_, fun fuel => rfl⟩
  · unfold deferEndUnclippedLayerOp
    rw [h]
    dsimp only
    cases hu : lb.unclipped with
    | nil => simp
    | cons x rest => simp
  · intro x rest hu
    unfold deferEndUnclippedLayerOp popUnclippedState
    rw [h]
    dsimp only
    rw [hu]

def c8Baked : BakedM := ⟨Affine.identM, some ⟨ClipMode.Rectangle, baseClip⟩, ⟨10, 10, 20, 20⟩⟩

def c8Builder : LayerBuilderM := ⟨100, 100, baseClip, none, none, [], [c8Baked]⟩

def c8State : FrameState := { baseState with layerBuilders := [c8Builder] }

/-- Witness for C8 at a state whose current builder holds one active
unclipped save-layer. -/
theorem deferEndUnclippedLayerOp_spec_witness :
    currentBuilder c8State = some c8Builder
    ∧ (deferEndUnclippedLayerOp c8State = none ↔ c8Builder.unclipped = [])
    ∧ deferEndUnclippedLayerOp c8State = some (popUnclippedState c8State c8Builder c8Baked []) :=
  ⟨by decide,
   (deferEndUnclippedLayerOp_spec c8State c8Builder (by decide)).1,
   (deferEndUnclippedLayerOp_spec c8State c8Builder (by decide)).2.1 c8Baked [] (by decide)⟩

/-! ### C7 — node rejection -/

/-- C7: `deferNodePropsAndOps` returns its input state untouched —
deferring nothing and mutating no canvas state — whenever the node has
alpha ≤ 0, a clipping empty outline, or a zero scale; and (second
conjunct) a `RenderNodeOp` over a node with alpha ≤ 0 leaves the whole
engine state exactly as it was, which is what makes an alpha-0 node
contribute zero ops at any depth of the tree, every node being entered
through this dispatch. -/
theorem deferNodePropsAndOps_rejection :
    (∀ (fuel : Nat) (s : FrameState) (n : RenderNode),
        (n.props.alpha ≤ 0 ∨ (n.props.outlineShouldClip ∧ n.props.outlineIsEmpty)
          ∨ n.props.scaleX = 0 ∨ n.props.scaleY = 0) →
        run (fuel + 1) s (FTask.nodePropsAndOps n) = some s)
    ∧ (∀ (fuel : Nat) (s : FrameState) (lm : Affine) (lc : Option Rect) (skip : Bool)
          (n : RenderNode), n.props.alpha ≤ 0 →
        run (fuel + 2) s (FTask.oneOp (DLOp.renderNodeOp lm lc skip n)) = some s) := by
  have main : ∀ (fuel : Nat) (s : FrameState) (n : RenderNode),
      (n.props.alpha ≤ 0 ∨ (n.props.outlineShouldClip ∧ n.props.outlineIsEmpty)
        ∨ n.props.scaleX = 0 ∨ n.props.scaleY = 0) →
      run (fuel + 1) s (FTask.nodePropsAndOps n) = some s := by
    intro fuel s n h
    simp only [run]
    rw [if_pos h]
  refine ⟨main, ?_⟩
  intro fuel s lm lc skip n h
  simp only [run]
  cases skip with
  | true => rfl
  | false =>
    cases hntd : n.nothingToDraw with
    | true => simp
    | false =>
      simp only [Bool.false_eq_true, if_false]
      rw [if_pos (Or.inl h)]
      simp [restore_setSnap_save]

def c7Node : RenderNode :=
  RenderNode.mk 3
    ⟨0, 0, 0, 0, 0, 1, 1, none, none, false, false, Affine.identM, 50, 50,
     false, false, false, false, ⟨0, 0, 0, 0⟩, false, ⟨0, 0, 0, 0⟩, 0, false, false, false⟩
    false false Affine.identM none

/-- Witness for C7 at a node with alpha = 0. -/
theorem deferNodePropsAndOps_rejection_witness :
    (c7Node.props.alpha ≤ 0 ∨ (c7Node.props.outlineShouldClip ∧ c7Node.props.outlineIsEmpty)
      ∨ c7Node.props.scaleX = 0 ∨ c7Node.props.scaleY = 0)
    ∧ run 1 baseState (FTask.nodePropsAndOps c7Node) = some baseState
    ∧ run 2 baseState (FTask.oneOp (DLOp.renderNodeOp Affine.identM none false c7Node))
        = some baseState :=
  ⟨Or.inl (by decide),
   deferNodePropsAndOps_rejection.1 0 baseState c7Node (Or.inl (by decide)),
   deferNodePropsAndOps_rejection.2 0 baseState Affine.identM none false c7Node (by decide)⟩

/-! ### C10 — HW-layer LayerOp subject to quick reject -/

/-- C10: for a node with a persistent HW layer, the emitted `LayerOp`
goes through `tryBakeOpState`; when that bake returns null the node
contributes no op to any layer builder — the builders and the layer
stack come out of `deferNodePropsAndOps` exactly unchanged, silently,
and the node's display list is never traversed (the HW-layer branch
never recurses into `deferNodeOps`). -/
theorem hwLayer_bake_reject_contributes_nothing :
    ∀ (fuel : Nat) (s : FrameState) (n : RenderNode),
      n.hwLayer = true →
      tryBakeLayerOp (applyNodeProps (curSnap s) n.props).1 n = none →
      ∃ s', run (fuel + 1) s (FTask.nodePropsAndOps n) = some s'
        ∧ s'.layerBuilders = s.layerBuilders
        ∧ s'.layerStack = s.layerStack := by
  intro fuel s n hhw hbake
  simp only [run]
  by_cases hrej : (n.props.alpha ≤ 0 ∨ (n.props.outlineShouldClip ∧ n.props.outlineIsEmpty)
      ∨ n.props.scaleX = 0 ∨ n.props.scaleY = 0)
  · rw [if_pos hrej]
    exact ⟨s, rfl, rfl, rfl⟩
  · rw [if_neg hrej]
    by_cases hqr : quickRejectConservative (applyNodeProps (curSnap s) n.props).1
        (Rect.sized (Q.ofInt n.props.width) (Q.ofInt n.props.height)) = true
    · rw [if_pos hqr]
      exact ⟨_, rfl, setSnap_layerBuilders _ s, setSnap_layerStack _ s⟩
    · rw [if_neg hqr, if_pos hhw, hbake]
      exact ⟨_, rfl, setSnap_layerBuilders _ s, setSnap_layerStack _ s⟩

/-- HW-layer node scaled to 0.4 so the LayerOp's exact bake fails
against the fractional clip while the conservative (pixel-snapped)
quick-reject passes. -/
def c10Node : RenderNode :=
  RenderNode.mk 5
    ⟨1, 0, 0, 0, 0, 1, 1, some ⟨⟨2, 5⟩, 0, 0, ⟨2, 5⟩, 0, 0⟩, none, false, false,
     Affine.identM, 1, 1, false, false, false, false, ⟨0, 0, 0, 0⟩, false,
     ⟨0, 0, 0, 0⟩, 0, false, false, false⟩
    true false Affine.identM none

def c10State : FrameState := initFrameState ⟨⟨1, 2⟩, ⟨1, 2⟩, 10, 10⟩ 10 10 ⟨5, 5, 20⟩

/-- Witness for C10; the hypotheses hold at a state where the node is
neither rejected nor quick-rejected, so the HW-layer branch itself is
exercised. -/
theorem hwLayer_bake_reject_contributes_nothing_witness :
    c10Node.hwLayer = true
    ∧ tryBakeLayerOp (applyNodeProps (curSnap c10State) c10Node.props).1 c10Node = none
    ∧ ∃ s', run 1 c10State (FTask.nodePropsAndOps c10Node) = some s'
        ∧ s'.layerBuilders = c10State.layerBuilders
        ∧ s'.layerStack = c10State.layerStack :=
  ⟨by decide, by decide,
   hwLayer_bake_reject_contributes_nothing 0 c10State c10Node (by decide) (by decide)⟩

/-! ### Event-stream lemmas for draw segments -/

/-- Simple drawing ops: those whose handlers only bake and defer into
the current layer, touching no stack. -/
def isDrawOp : DLOp → Bool
  | .bitmapOp _ _ => true
  | .rectOp _ => true
  | .roundRectOp _ => true
  | .ovalOp _ => true
  | .arcOp _ => true
  | .pathOp _ => true
  | .simpleRectsOp _ => true
  | _ => false

theorem list_set_same {α : Type} : ∀ (l : List α) (i : Nat) (x : α),
    l[i]? = some x → l.set i x = l := by
  intro l
  induction l with
  | nil => intro i x h; simp at h
  | cons a t ih =>
    intro i x h
    cases i with
    | zero =>
      simp at h
      simp [h]
    | succ j =>
      simp at h
      simp [List.set, ih j x h]

/-- Append a batch of defer events to builder `i`. -/
def appendEventsAt (s : FrameState) (i : Nat) (evs : List LBEvent) : FrameState :=
  modifyAt s i (fun lb => { lb with events := lb.events ++ evs })

theorem appendEventsAt_nil (s : FrameState) (i : Nat) : appendEventsAt s i [] = s := by
  unfold appendEventsAt modifyAt
  cases h : s.layerBuilders[i]? with
  | none => rfl
  | some lb =>
    simp only [List.append_nil]
    have he : ({ lb with events := lb.events } : LayerBuilderM) = lb := rfl
    rw [he, list_set_same _ _ _ h]

theorem appendEventsAt_saveStack (s : FrameState) (i : Nat) (evs : List LBEvent) :
    (appendEventsAt s i evs).saveStack = s.saveStack := by
  unfold appendEventsAt modifyAt
  split <;> rfl

theorem appendEventsAt_layerStack (s : FrameState) (i : Nat) (evs : List LBEvent) :
    (appendEventsAt s i evs).layerStack = s.layerStack := by
  unfold appendEventsAt modifyAt
  split <;> rfl

theorem appendEventsAt_currentIdx (s : FrameState) (i : Nat) (evs : List LBEvent) :
    currentLayerIdx (appendEventsAt s i evs) = currentLayerIdx s := by
  unfold currentLayerIdx
  rw [appendEventsAt_layerStack]

theorem appendEventsAt_curSnap (s : FrameState) (i : Nat) (evs : List LBEvent) :
    curSnap (appendEventsAt s i evs) = curSnap s := by
  unfold curSnap
  rw [appendEventsAt_saveStack]

theorem appendEventsAt_append (s : FrameState) (i : Nat) (a b : List LBEvent) :
    appendEventsAt (appendEventsAt s i a) i b = appendEventsAt s i (a ++ b) := by
  cases h : s.layerBuilders[i]? with
  | none => simp [appendEventsAt, modifyAt, h]
  | some lb =>
    have hlt : i < s.layerBuilders.length := by
      by_contra hge
      rw [List.getElem?_eq_none (Nat.le_of_not_lt hge)] at h
      cases h
    have h2 : (s.layerBuilders.set i { lb with events := lb.events ++ a })[i]? =
        some { lb with events := lb.events ++ a } := by
      rw [List.getElem?_set_eq_of_lt _ (by simpa using hlt)]
    simp [appendEventsAt, modifyAt, h, h2, List.set_set, List.append_assoc]

theorem appendCurrentEvent_eq (s : FrameState) (e : LBEvent) :
    appendCurrentEvent s e = appendEventsAt s (currentLayerIdx s) [e] := rfl

theorem tryBake_clipState_some (sn : Snapshot) (d : StdOpData) (bs : BakedM)
    (h : tryBakeOpState sn d = some bs) : ∃ c, bs.clipState = some c := by
  simp only [tryBakeOpState] at h
  split at h
  · cases h
  · cases h
    exact ⟨_, rfl⟩

theorem bitmapMergeDecision_ne_none (bs : BakedM) (p : PaintM) (bmp : BitmapM)
    (c : ClipStateM) (hc : bs.clipState = some c) :
    bitmapMergeDecision bs p bmp ≠ none := by
  unfold bitmapMergeDecision hasMergeableClip
  rw [hc]
  split <;> simp

/-- Every simple draw op either quick-rejects or appends events to the
current builder, leaving the stacks and every other builder alone. -/
theorem run_draw_effect :
    ∀ (op : DLOp), isDrawOp op = true → ∀ (fuel : Nat) (s : FrameState),
      ∃ evs : List LBEvent,
        run (fuel + 1) s (FTask.oneOp op) =
          some (appendEventsAt s (currentLayerIdx s) evs) := by
  intro op hop fuel s
  cases op with
  | bitmapOp d bmp =>
    show ∃ evs, deferBitmapOp s d bmp = some (appendEventsAt s (currentLayerIdx s) evs)
    cases hb : tryBakeOpState (curSnap s) d with
    | none => exact ⟨[], by simp [deferBitmapOp, hb, appendEventsAt_nil]⟩
    | some bs =>
      obtain ⟨c, hc⟩ := tryBake_clipState_some _ _ _ hb
      cases hdec : bitmapMergeDecision bs d.paint bmp with
      | none => exact absurd hdec (bitmapMergeDecision_ne_none bs d.paint bmp c hc)
      | some b =>
        cases b with
        | true =>
          exact ⟨[LBEvent.mergeable OpBatchType.Bitmap bmp.generationID bs.clippedBounds],
            by simp [deferBitmapOp, hb, hdec, appendCurrentEvent_eq]⟩
        | false =>
          exact ⟨[LBEvent.unmergeable OpBatchType.Bitmap bs.clippedBounds],
            by simp [deferBitmapOp, hb, hdec, appendCurrentEvent_eq]⟩
  | rectOp d =>
    show ∃ evs, some (deferStrokeableOp s d (tessBatchId d.paint) false) = _
    cases hb : tryStrokeableOpConstruct (curSnap s) d false with
    | none => exact ⟨[], by simp [deferStrokeableOp, hb, appendEventsAt_nil]⟩
    | some bs =>
      exact ⟨[LBEvent.unmergeable (tessBatchId d.paint) bs.clippedBounds],
        by simp [deferStrokeableOp, hb, appendCurrentEvent_eq]⟩
  | roundRectOp d =>
    show ∃ evs, some (deferStrokeableOp s d (tessBatchId d.paint) false) = _
    cases hb : tryStrokeableOpConstruct (curSnap s) d false with
    | none => exact ⟨[], by simp [deferStrokeableOp, hb, appendEventsAt_nil]⟩
    | some bs =>
      exact ⟨[LBEvent.unmergeable (tessBatchId d.paint) bs.clippedBounds],
        by simp [deferStrokeableOp, hb, appendCurrentEvent_eq]⟩
  | ovalOp d =>
    show ∃ evs, some (deferStrokeableOp s d (tessBatchId d.paint) false) = _
    cases hb : tryStrokeableOpConstruct (curSnap s) d false with
    | none => exact ⟨[], by simp [deferStrokeableOp, hb, appendEventsAt_nil]⟩
    | some bs =>
      exact ⟨[LBEvent.unmergeable (tessBatchId d.paint) bs.clippedBounds],
        by simp [deferStrokeableOp, hb, appendCurrentEvent_eq]⟩
  | arcOp d =>
    show ∃ evs, some (deferStrokeableOp s d (tessBatchId d.paint) false) = _
    cases hb : tryStrokeableOpConstruct (curSnap s) d false with
    | none => exact ⟨[], by simp [deferStrokeableOp, hb, appendEventsAt_nil]⟩
    | some bs =>
      exact ⟨[LBEvent.unmergeable (tessBatchId d.paint) bs.clippedBounds],
        by simp [deferStrokeableOp, hb, appendCurrentEvent_eq]⟩
  | pathOp d =>
    show ∃ evs, some (deferStrokeableOp s d OpBatchType.Bitmap false) = _
    cases hb : tryStrokeableOpConstruct (curSnap s) d false with
    | none => exact ⟨[], by simp [deferStrokeableOp, hb, appendEventsAt_nil]⟩
    | some bs =>
      exact ⟨[LBEvent.unmergeable OpBatchType.Bitmap bs.clippedBounds],
        by simp [deferStrokeableOp, hb, appendCurrentEvent_eq]⟩
  | simpleRectsOp d =>
    show ∃ evs, some (deferSimpleRectsOp s d) = _
    cases hb : tryBakeOpState (curSnap s) d with
    | none => exact ⟨[], by simp [deferSimpleRectsOp, hb, appendEventsAt_nil]⟩
    | some bs =>
      exact ⟨[LBEvent.unmergeable OpBatchType.Vertices bs.clippedBounds],
        by simp [deferSimpleRectsOp, hb, appendCurrentEvent_eq]⟩
  | renderNodeOp lm lc skip n => cases hop
  | beginLayerOp d => cases hop
  | endLayerOp => cases hop
  | beginUnclippedLayerOp d => cases hop
  | endUnclippedLayerOp => cases hop

/-- A whole segment of simple draw ops only appends events to the
current builder. -/
theorem draws_fold_effect :
    ∀ (l : List DLOp), (∀ op ∈ l, isDrawOp op = true) → ∀ (fuel : Nat) (s : FrameState),
      ∃ evs : List LBEvent,
        l.foldlM (fun st op => run (fuel + 1) st (FTask.oneOp op)) s =
          some (appendEventsAt s (currentLayerIdx s) evs) := by
  intro l
  induction l with
  | nil =>
    intro _ fuel s
    exact ⟨[], by simp [appendEventsAt_nil]⟩
  | cons op rest ih =>
    intro hall fuel s
    obtain ⟨evs1, h1⟩ := run_draw_effect op (hall op (List.mem_cons_self op rest)) fuel s
    obtain ⟨evs2, h2⟩ := ih (fun o ho => hall o (List.mem_cons_of_mem _ ho)) fuel
      (appendEventsAt s (currentLayerIdx s) evs1)
    refine ⟨evs1 ++ evs2, ?_⟩
    rw [List.foldlM_cons, h1]
    simp only [Option.bind_eq_bind, Option.some_bind]
    rw [h2, appendEventsAt_currentIdx, appendEventsAt_append]

/-! ### C5 — unclipped save-layer sequence -/

theorem getElem_some_lt {α : Type} (l : List α) (i : Nat) (x : α)
    (h : l[i]? = some x) : i < l.length := by
  by_contra hge
  rw [List.getElem?_eq_none (Nat.le_of_not_lt hge)] at h
  cases h

theorem appendEventsAt_length (s : FrameState) (i : Nat) (evs : List LBEvent) :
    (appendEventsAt s i evs).layerBuilders.length = s.layerBuilders.length := by
  unfold appendEventsAt modifyAt
  split
  · rfl
  · simp

/-- Destination rectangle of an unclipped save-layer: the op's
unmapped bounds mapped by the current transform, intersected with the
current render-target clip (`deferBeginUnclippedLayerOp`, source lines
693-698). -/
def unclippedDstRect (sn : Snapshot) (d : StdOpData) : Rect :=
  ((sn.transform.mul d.localMatrix).mapRect d.unmappedBounds).doIntersect sn.clip

/-- Pending copy-from op stashed by `deferBeginUnclippedLayerOp`
(`BakedOpState::directConstruct` over `dstRect`). -/
def unclippedCopyFromOp (sn : Snapshot) (d : StdOpData) (lb : LayerBuilderM) : BakedM :=
  ⟨Affine.identM, some ⟨ClipMode.Rectangle, Rect.sized lb.width lb.height⟩,
   unclippedDstRect sn d⟩

/-- Current builder after `deferBeginUnclippedLayerOp`: the
`CopyToLayer` and clear events appended, the pending `CopyFromLayer`
op pushed. -/
def beginUnclippedBuilder (sn : Snapshot) (d : StdOpData) (lb : LayerBuilderM) : LayerBuilderM :=
  { lb with
    events := lb.events ++
      [LBEvent.unmergeable OpBatchType.CopyToLayer (unclippedDstRect sn d),
       LBEvent.layerClear (unclippedDstRect sn d)],
    unclipped := unclippedCopyFromOp sn d lb :: lb.unclipped }

/-- State after `deferBeginUnclippedLayerOp` relative to the current
builder. -/
def beginUnclippedState (s : FrameState) (d : StdOpData) (lb : LayerBuilderM) : FrameState :=
  { s with layerBuilders :=
      s.layerBuilders.set (currentLayerIdx s) (beginUnclippedBuilder (curSnap s) d lb) }

theorem currentLayerIdx_withBuilders (s : FrameState) (bs : List LayerBuilderM) :
    currentLayerIdx { s with layerBuilders := bs } = currentLayerIdx s := rfl

theorem curSnap_withBuilders (s : FrameState) (bs : List LayerBuilderM) :
    curSnap { s with layerBuilders := bs } = curSnap s := rfl

theorem modifyCurrent_eq (s : FrameState) (f : LayerBuilderM → LayerBuilderM)
    (lb : LayerBuilderM) (h : currentBuilder s = some lb) :
    modifyCurrent s f =
      { s with layerBuilders := s.layerBuilders.set (currentLayerIdx s) (f lb) } := by
  unfold modifyCurrent modifyAt
  rw [show s.layerBuilders[currentLayerIdx s]? = some lb from h]

theorem currentBuilder_set_current' (s : FrameState) (lb2 : LayerBuilderM)
    (hlt : currentLayerIdx s < s.layerBuilders.length) :
    currentBuilder
        { s with layerBuilders := s.layerBuilders.set (currentLayerIdx s) lb2 } =
      some lb2 := by
  show (s.layerBuilders.set (currentLayerIdx s) lb2)[currentLayerIdx s]? = some lb2
  rw [List.getElem?_set_eq_of_lt _ hlt]

theorem deferBeginUnclipped_effect (s : FrameState) (d : StdOpData) (lb : LayerBuilderM)
    (h : currentBuilder s = some lb) :
    deferBeginUnclippedLayerOp s d = beginUnclippedState s d lb := by
  have hG : s.layerBuilders[currentLayerIdx s]? = some lb := h
  have hlt := getElem_some_lt _ _ _ hG
  obtain ⟨ss, lbs, lst⟩ := s
  simp only [deferBeginUnclippedLayerOp, beginUnclippedState, beginUnclippedBuilder,
    unclippedCopyFromOp, appendCurrentEvent,
    pushUnclippedCurrent, modifyCurrent, modifyAt, unclippedDstRect, currentBuilder,
    currentLayerIdx, curSnap, List.headD_eq_head?] at hG hlt ⊢
  simp [hG, List.getElem?_set_eq_of_lt, hlt, List.set_set]

theorem deferEndUnclipped_effect (s : FrameState) (lb : LayerBuilderM) (x : BakedM)
    (rest : List BakedM) (h : currentBuilder s = some lb) (hu : lb.unclipped = x :: rest) :
    deferEndUnclippedLayerOp s = some (popUnclippedState s lb x rest) := by
  unfold deferEndUnclippedLayerOp popUnclippedState
  rw [h]
  dsimp only
  rw [hu]

theorem currentBuilder_appendEventsAt (s : FrameState) (evs : List LBEvent)
    (lb : LayerBuilderM) (h : currentBuilder s = some lb) :
    currentBuilder (appendEventsAt s (currentLayerIdx s) evs) =
      some { lb with events := lb.events ++ evs } := by
  have hG : s.layerBuilders[currentLayerIdx s]? = some lb := h
  have hlt := getElem_some_lt _ _ _ hG
  unfold appendEventsAt modifyAt
  rw [hG]
  exact currentBuilder_set_current' s _ hlt


/-- C5: a `BeginUnclippedLayerOp`/`EndUnclippedLayerOp` pair enclosing
draw ops hands the current layer builder, in order: the `CopyToLayerOp`
baked over `dstRect` (batch `CopyToLayer`), the deferred layer clear of
`dstRect`, the events of the enclosed draws, and at the end op the
`CopyFromLayerOp` (batch `CopyFromLayer`) over the same `dstRect` —
where `dstRect` (`unclippedDstRect`) is the op's unmapped bounds mapped
by the current transform and intersected with the current render-target
clip; the save stack, layer stack and active-unclipped stack come back
unchanged. -/
theorem unclippedLayer_defer_sequence :
    ∀ (fuel : Nat) (s : FrameState) (d : StdOpData) (draws : List DLOp) (lb : LayerBuilderM),
      (∀ op ∈ draws, isDrawOp op = true) →
      currentBuilder s = some lb →
      ∃ (drawEvents : List LBEvent) (s' : FrameState),
        run (fuel + 2) s
            (FTask.opsList
              (DLOp.beginUnclippedLayerOp d :: (draws ++ [DLOp.endUnclippedLayerOp])))
          = some s'
        ∧ (currentBuilder s').map (fun b => b.events) = some (lb.events
            ++ [LBEvent.unmergeable OpBatchType.CopyToLayer (unclippedDstRect (curSnap s) d),
                LBEvent.layerClear (unclippedDstRect (curSnap s) d)]
            ++ drawEvents
            ++ [LBEvent.unmergeable OpBatchType.CopyFromLayer (unclippedDstRect (curSnap s) d)])
        ∧ (currentBuilder s').map (fun b => b.unclipped) = some lb.unclipped
        ∧ s'.saveStack = s.saveStack
        ∧ s'.layerStack = s.layerStack := by
  intro fuel s d draws lb hdraws h
  have hlt := getElem_some_lt _ _ _ (show s.layerBuilders[currentLayerIdx s]? = some lb from h)
  have hbegin : deferBeginUnclippedLayerOp s d = beginUnclippedState s d lb :=
    deferBeginUnclipped_effect s d lb h
  have hcb1 : currentBuilder (beginUnclippedState s d lb) =
      some (beginUnclippedBuilder (curSnap s) d lb) :=
    currentBuilder_set_current' s _ hlt
  obtain ⟨evs, hfold⟩ := draws_fold_effect draws hdraws fuel (beginUnclippedState s d lb)
  have hcb2 := currentBuilder_appendEventsAt (beginUnclippedState s d lb) evs _ hcb1
  have hend := deferEndUnclipped_effect
    (appendEventsAt (beginUnclippedState s d lb)
      (currentLayerIdx (beginUnclippedState s d lb)) evs)
    _ (unclippedCopyFromOp (curSnap s) d lb) lb.unclipped hcb2 rfl
  have hlt2 := getElem_some_lt _ _ _
    (show (appendEventsAt (beginUnclippedState s d lb)
        (currentLayerIdx (beginUnclippedState s d lb)) evs).layerBuilders[currentLayerIdx
          (appendEventsAt (beginUnclippedState s d lb)
            (currentLayerIdx (beginUnclippedState s d lb)) evs)]? = some _ from hcb2)
  refine ⟨evs, popUnclippedState
      (appendEventsAt (beginUnclippedState s d lb)
        (currentLayerIdx (beginUnclippedState s d lb)) evs)
      { beginUnclippedBuilder (curSnap s) d lb with
          events := (beginUnclippedBuilder (curSnap s) d lb).events ++ evs }
      (unclippedCopyFromOp (curSnap s) d lb) lb.unclipped, ?_, ?_, ?_, ?_, ?_⟩
  · show ((DLOp.beginUnclippedLayerOp d :: (draws ++ [DLOp.endUnclippedLayerOp])).foldlM
        (fun st op => run (fuel + 1) st (FTask.oneOp op)) s) = some _
    rw [List.foldlM_cons]
    have hstep : run (fuel + 1) s (FTask.oneOp (DLOp.beginUnclippedLayerOp d)) =
        some (deferBeginUnclippedLayerOp s d) := rfl
    rw [hstep, hbegin]
    simp only [Option.bind_eq_bind, Option.some_bind]
    rw [List.foldlM_append, hfold]
    simp only [Option.bind_eq_bind, Option.some_bind]
    rw [List.foldlM_cons]
    have hstep2 : run (fuel + 1)
        (appendEventsAt (beginUnclippedState s d lb)
          (currentLayerIdx (beginUnclippedState s d lb)) evs)
        (FTask.oneOp DLOp.endUnclippedLayerOp) =
        deferEndUnclippedLayerOp
          (appendEventsAt (beginUnclippedState s d lb)
            (currentLayerIdx (beginUnclippedState s d lb)) evs) := rfl
    rw [hstep2, hend]
    rfl
  · rw [show currentBuilder (popUnclippedState _ _ (unclippedCopyFromOp (curSnap s) d lb)
        lb.unclipped) = some _ from currentBuilder_set_current' _ _ hlt2]
    simp [beginUnclippedBuilder, unclippedCopyFromOp, popUnclippedState, List.append_assoc]
  · rw [show currentBuilder (popUnclippedState _ _ (unclippedCopyFromOp (curSnap s) d lb)
        lb.unclipped) = some _ from currentBuilder_set_current' _ _ hlt2]
    rfl
  · show (appendEventsAt (beginUnclippedState s d lb)
        (currentLayerIdx (beginUnclippedState s d lb)) evs).saveStack = s.saveStack
    rw [appendEventsAt_saveStack]
    rfl
  · show (appendEventsAt (beginUnclippedState s d lb)
        (currentLayerIdx (beginUnclippedState s d lb)) evs).layerStack = s.layerStack
    rw [appendEventsAt_layerStack]
    rfl

def c5Begin : StdOpData := ⟨⟨10, 10, 20, 20⟩, Affine.identM, none, basePaint⟩

def c5Rect : StdOpData := ⟨⟨12, 12, 18, 18⟩, Affine.identM, none, basePaint⟩

def c5Lb : LayerBuilderM := ⟨100, 100, baseClip, none, none, [], []⟩

/-- Witness for C5, the spec's S6 scenario: an unclipped layer over
(10,10,20,20) around one rect draw in the primary framebuffer. -/
theorem unclippedLayer_defer_sequence_witness :
    ∃ (drawEvents : List LBEvent) (s' : FrameState),
      run 2 baseState
          (FTask.opsList
            (DLOp.beginUnclippedLayerOp c5Begin ::
              ([DLOp.rectOp c5Rect] ++ [DLOp.endUnclippedLayerOp])))
        = some s'
      ∧ (currentBuilder s').map (fun b => b.events) = some (c5Lb.events
          ++ [LBEvent.unmergeable OpBatchType.CopyToLayer
                (unclippedDstRect (curSnap baseState) c5Begin),
              LBEvent.layerClear (unclippedDstRect (curSnap baseState) c5Begin)]
          ++ drawEvents
          ++ [LBEvent.unmergeable OpBatchType.CopyFromLayer
                (unclippedDstRect (curSnap baseState) c5Begin)])
      ∧ (currentBuilder s').map (fun b => b.unclipped) = some c5Lb.unclipped
      ∧ s'.saveStack = baseState.saveStack
      ∧ s'.layerStack = baseState.layerStack :=
  unclippedLayer_defer_sequence 0 baseState c5Begin [DLOp.rectOp c5Rect] c5Lb
    (by decide) (by decide)

/-! ### Invariants for the balanced-stack development -/

/-- Per-builder metadata preserved by a balanced segment: everything
except the (growing) event stream. -/
structure MetaPreserved (a b : LayerBuilderM) : Prop where
  width : b.width = a.width
  height : b.height = a.height
  repaintRect : b.repaintRect = a.repaintRect
  beginLayerData : b.beginLayerData = a.beginLayerData
  nodeId : b.nodeId = a.nodeId
  unclipped : b.unclipped = a.unclipped

theorem MetaPreserved.mprefl (a : LayerBuilderM) : MetaPreserved a a :=
  ⟨rfl, rfl, rfl, rfl, rfl, rfl⟩

theorem MetaPreserved.mptrans {a b c : LayerBuilderM}
    (h1 : MetaPreserved a b) (h2 : MetaPreserved b c) : MetaPreserved a c :=
  ⟨h2.width.trans h1.width, h2.height.trans h1.height,
   h2.repaintRect.trans h1.repaintRect, h2.beginLayerData.trans h1.beginLayerData,
   h2.nodeId.trans h1.nodeId, h2.unclipped.trans h1.unclipped⟩

/-- Reachable-state invariant: non-empty save and layer stacks, and
every stacked layer index valid. -/
structure GoodState (s : FrameState) : Prop where
  saveNe : s.saveStack ≠ []
  layerNe : s.layerStack ≠ []
  layerValid : ∀ i ∈ s.layerStack, i < s.layerBuilders.length

/-- Metadata-preservation relation over all builders of the smaller
state. -/
def MetaAll (s s' : FrameState) : Prop :=
  ∀ (j : Nat) (x : LayerBuilderM), s.layerBuilders[j]? = some x →
    ∃ y, s'.layerBuilders[j]? = some y ∧ MetaPreserved x y

theorem MetaAll.marefl (s : FrameState) : MetaAll s s := by
  unfold MetaAll
  intro j x hx
  exact ⟨x, hx, MetaPreserved.mprefl x⟩

theorem MetaAll.matrans {s s' s'' : FrameState}
    (h1 : MetaAll s s') (h2 : MetaAll s' s'') : MetaAll s s'' := by
  unfold MetaAll at h1 h2 ⊢
  intro j x hx
  obtain ⟨y, hy, m1⟩ := h1 j x hx
  obtain ⟨z, hz, m2⟩ := h2 j y hy
  exact ⟨z, hz, m1.mptrans m2⟩

theorem modifyAt_saveStack (s : FrameState) (i : Nat) (f : LayerBuilderM → LayerBuilderM) :
    (modifyAt s i f).saveStack = s.saveStack := by
  unfold modifyAt
  split <;> rfl

theorem modifyAt_layerStack (s : FrameState) (i : Nat) (f : LayerBuilderM → LayerBuilderM) :
    (modifyAt s i f).layerStack = s.layerStack := by
  unfold modifyAt
  split <;> rfl

theorem modifyAt_length (s : FrameState) (i : Nat) (f : LayerBuilderM → LayerBuilderM) :
    (modifyAt s i f).layerBuilders.length = s.layerBuilders.length := by
  unfold modifyAt
  split
  · rfl
  · simp

theorem modifyAt_meta (s : FrameState) (i : Nat) (f : LayerBuilderM → LayerBuilderM)
    (hf : ∀ x, MetaPreserved x (f x)) : MetaAll s (modifyAt s i f) := by
  unfold MetaAll
  intro j x hx
  unfold modifyAt
  cases hi : s.layerBuilders[i]? with
  | none => exact ⟨x, hx, MetaPreserved.mprefl x⟩
  | some lb =>
    by_cases hji : j = i
    · subst hji
      have hxlb : x = lb := by rw [hx] at hi; cases hi; rfl
      subst hxlb
      refine ⟨f x, ?_, hf x⟩
      show (s.layerBuilders.set j (f x))[j]? = some (f x)
      rw [List.getElem?_set_eq_of_lt _ (getElem_some_lt _ _ _ hx)]
    · refine ⟨x, ?_, MetaPreserved.mprefl x⟩
      show (s.layerBuilders.set i (f lb))[j]? = some x
      rw [List.getElem?_set_ne (fun he => hji he.symm)]
      exact hx

theorem GoodState.congr {s s' : FrameState} (hs : GoodState s)
    (hsv : s'.saveStack = s.saveStack) (hls : s'.layerStack = s.layerStack)
    (hlen : s.layerBuilders.length ≤ s'.layerBuilders.length) : GoodState s' := by
  refine ⟨by rw [hsv]; exact hs.saveNe, by rw [hls]; exact hs.layerNe, ?_⟩
  intro i hi
  rw [hls] at hi
  exact Nat.lt_of_lt_of_le (hs.layerValid i hi) hlen

/-! ### Interpreter decomposition lemmas -/

theorem run_opsList_nil (k : Nat) (s : FrameState) :
    run (k + 1) s (FTask.opsList []) = some s := rfl

theorem run_opsList_cons (k : Nat) (s : FrameState) (op : DLOp) (rest : List DLOp) :
    run (k + 1) s (FTask.opsList (op :: rest)) =
      (run k s (FTask.oneOp op)).bind (fun st => run (k + 1) st (FTask.opsList rest)) := by
  show (op :: rest).foldlM (fun st o => run k st (FTask.oneOp o)) s = _
  rw [List.foldlM_cons]
  rfl

theorem run_opsList_append (k : Nat) (s : FrameState) (a b : List DLOp) :
    run (k + 1) s (FTask.opsList (a ++ b)) =
      (run (k + 1) s (FTask.opsList a)).bind (fun st => run (k + 1) st (FTask.opsList b)) := by
  show (a ++ b).foldlM (fun st o => run k st (FTask.oneOp o)) s = _
  rw [List.foldlM_append]
  rfl

theorem set_concat_length {α : Type} (l : List α) (a b : α) :
    (l ++ [a]).set l.length b = l ++ [b] := by
  induction l with
  | nil => rfl
  | cons x t ih => simp [List.set, ih]

/-- Explicit shape of `saveForLayer`: one pushed (reinitialised)
snapshot, one pushed layer index, one appended builder. -/
theorem saveForLayer_eq (s : FrameState) (w h tx ty : Q) (rp : Rect) (light : V3)
    (bd : Option StdOpData) (nid : Option Nat) :
    saveForLayer s w h tx ty rp light bd nid =
      { saveStack :=
          { curSnap s with
            transform := Affine.translation tx ty,
            roundRectClipState := none,
            relativeLightCenter := light,
            clip := rp } :: s.saveStack,
        layerBuilders := s.layerBuilders ++ [⟨w, h, rp, bd, nid, [], []⟩],
        layerStack := s.layerBuilders.length :: s.layerStack } := rfl

/-- Shape of `deferBeginLayerOp`: whatever the computed geometry, it
pushes one snapshot, one layer index, and one fresh builder carrying
the begin op. -/
theorem deferBeginLayerOp_shape (s : FrameState) (d : StdOpData) :
    ∃ (sn : Snapshot) (w h : Q) (rp : Rect),
      deferBeginLayerOp s d =
        { saveStack := sn :: s.saveStack,
          layerBuilders := s.layerBuilders ++ [⟨w, h, rp, some d, none, [], []⟩],
          layerStack := s.layerBuilders.length :: s.layerStack } := by
  simp only [deferBeginLayerOp]
  exact ⟨_, _, _, _, saveForLayer_eq s _ _ _ _ _ _ _ _⟩

/-- Effect of `deferEndLayerOp` on a state whose current builder holds
a begin op: the finished layer and its snapshot are popped, and apart
from the parent's new `Bitmap` event (or the finished builder's
cleared events), all builder metadata survives. -/
theorem deferEndLayerOp_effect (s : FrameState) (lb : LayerBuilderM) (bd : StdOpData)
    (h : currentBuilder s = some lb) (hbd : lb.beginLayerData = some bd)
    (a b : Snapshot) (t : List Snapshot) (hsv : s.saveStack = a :: b :: t)
    (i : Nat) (lst : List Nat) (hls : s.layerStack = i :: lst) :
    ∃ s', deferEndLayerOp s = some s'
      ∧ s'.saveStack = b :: t
      ∧ s'.layerStack = lst
      ∧ s'.layerBuilders.length = s.layerBuilders.length
      ∧ MetaAll s s' := by
  unfold deferEndLayerOp
  rw [h]
  dsimp only
  rw [hbd]
  dsimp only
  have hrest : restoreForLayer s =
      some { s with saveStack := b :: t, layerStack := lst } := by
    unfold restoreForLayer restoreF
    rw [hsv]
    dsimp only [Option.bind_eq_bind, Option.some_bind]
    have : ({ s with saveStack := b :: t } : FrameState).layerStack = i :: lst := hls
    rw [this]
  rw [hrest]
  dsimp only [Option.bind_eq_bind, Option.some_bind]
  set sPop : FrameState := { s with saveStack := b :: t, layerStack := lst } with hsPop
  have hmetaPop : MetaAll s sPop := MetaAll.marefl s
  cases hbake : tryBakeOpState (curSnap sPop) bd with
  | some bk =>
    refine ⟨_, rfl, ?_, ?_, ?_, ?_⟩
    · rw [show appendCurrentEvent sPop _ = modifyCurrent sPop _ from rfl]
      unfold modifyCurrent
      rw [modifyAt_saveStack]
    · rw [show appendCurrentEvent sPop _ = modifyCurrent sPop _ from rfl]
      unfold modifyCurrent
      rw [modifyAt_layerStack]
    · rw [show appendCurrentEvent sPop _ = modifyCurrent sPop _ from rfl]
      unfold modifyCurrent
      rw [modifyAt_length]
    · exact MetaAll.matrans hmetaPop
        (modifyAt_meta sPop _ _ (fun x => ⟨rfl, rfl, rfl, rfl, rfl, rfl⟩))
  | none =>
    refine ⟨_, rfl, ?_, ?_, ?_, ?_⟩
    · unfold clearBuilder
      rw [modifyAt_saveStack]
    · unfold clearBuilder
      rw [modifyAt_layerStack]
    · unfold clearBuilder
      rw [modifyAt_length]
    · exact MetaAll.matrans hmetaPop
        (modifyAt_meta sPop _ _ (fun x => ⟨rfl, rfl, rfl, rfl, rfl, rfl⟩))

/-! ### Balanced display lists -/

/-- Well-nested display-list segments: draws, render-node ops over
balanced nodes, and properly bracketed clipped / unclipped save-layer
pairs. -/
inductive Bal : List DLOp → Prop where
  | nil : Bal []
  | draw (op : DLOp) (l : List DLOp) : isDrawOp op = true → Bal l → Bal (op :: l)
  | node (lm : Affine) (lc : Option Rect) (skip : Bool) (n : RenderNode) (l : List DLOp) :
      Bal (nodeOpsList n) → Bal l → Bal (DLOp.renderNodeOp lm lc skip n :: l)
  | layer (d : StdOpData) (inner rest : List DLOp) :
      Bal inner → Bal rest →
      Bal (DLOp.beginLayerOp d :: (inner ++ DLOp.endLayerOp :: rest))
  | unclipped (d : StdOpData) (inner rest : List DLOp) :
      Bal inner → Bal rest →
      Bal (DLOp.beginUnclippedLayerOp d :: (inner ++ DLOp.endUnclippedLayerOp :: rest))

/-- Conclusions of running a balanced op-list segment: both stacks
restored exactly, builders only extended, metadata preserved. -/
structure OpsConc (s s' : FrameState) : Prop where
  saveStack : s'.saveStack = s.saveStack
  layerStack : s'.layerStack = s.layerStack
  lbLen : s.layerBuilders.length ≤ s'.layerBuilders.length
  meta : MetaAll s s'

/-- Conclusions of `deferNodePropsAndOps`: the top snapshot may be
mutated but the stack below it, the layer stack and the builder
metadata survive. -/
structure NodeConc (s s' : FrameState) : Prop where
  saveTail : s'.saveStack.tail = s.saveStack.tail
  saveLen : s'.saveStack.length = s.saveStack.length
  layerStack : s'.layerStack = s.layerStack
  lbLen : s.layerBuilders.length ≤ s'.layerBuilders.length
  meta : MetaAll s s'

theorem MetaAll.of_eq {s s' : FrameState}
    (h : s'.layerBuilders = s.layerBuilders) : MetaAll s s' := by
  unfold MetaAll
  intro j x hx
  rw [h]
  exact ⟨x, hx, MetaPreserved.mprefl x⟩

theorem OpsConc.ocrefl (s : FrameState) : OpsConc s s :=
  ⟨rfl, rfl, Nat.le_refl _, MetaAll.marefl s⟩

theorem OpsConc.octrans {s s' s'' : FrameState}
    (h1 : OpsConc s s') (h2 : OpsConc s' s'') : OpsConc s s'' :=
  ⟨h2.saveStack.trans h1.saveStack, h2.layerStack.trans h1.layerStack,
   Nat.le_trans h1.lbLen h2.lbLen, h1.meta.matrans h2.meta⟩

/-- Termination/effect property of a display-list segment: for enough
fuel, the interpreter completes from every good state with the
balanced-segment conclusions. -/
def RunOps (l : List DLOp) : Prop :=
  ∃ N : Nat, ∀ fuel, N ≤ fuel → ∀ s : FrameState, GoodState s →
    ∃ s', run fuel s (FTask.opsList l) = some s' ∧ OpsConc s s' ∧ GoodState s'

/-- Same for `deferNodePropsAndOps` of one node. -/
def RunNode (n : RenderNode) : Prop :=
  ∃ N : Nat, ∀ fuel, N ≤ fuel → ∀ s : FrameState, GoodState s →
    ∃ s', run fuel s (FTask.nodePropsAndOps n) = some s' ∧ NodeConc s s' ∧ GoodState s'

theorem setSnap_cons (f : Snapshot → Snapshot) (s : FrameState) (a : Snapshot)
    (t : List Snapshot) (h : s.saveStack = a :: t) :
    setSnap f s = { s with saveStack := f a :: t } := by
  unfold setSnap
  rw [h]

theorem saveStack_exists_cons (s : FrameState) (hg : GoodState s) :
    ∃ a t, s.saveStack = a :: t := by
  cases hst : s.saveStack with
  | nil => exact absurd hst hg.saveNe
  | cons a t => exact ⟨a, t, rfl⟩

theorem layerStack_exists_cons (s : FrameState) (hg : GoodState s) :
    ∃ i lst, s.layerStack = i :: lst := by
  cases hst : s.layerStack with
  | nil => exact absurd hst hg.layerNe
  | cons i lst => exact ⟨i, lst, rfl⟩

theorem MetaAll.of_append {s s' : FrameState} (ext : List LayerBuilderM)
    (h : s'.layerBuilders = s.layerBuilders ++ ext) : MetaAll s s' := by
  unfold MetaAll
  intro j x hx
  refine ⟨x, ?_, MetaPreserved.mprefl x⟩
  rw [h, List.getElem?_append_left (getElem_some_lt _ _ _ hx)]
  exact hx

/-- `deferNodePropsAndOps` terminates with the node conclusions on
every good state, provided the node's display-list segment does. -/
theorem nodeProps_of_ops (n : RenderNode) (hops : RunOps (nodeOpsList n)) : RunNode n := by
  obtain ⟨N, hN⟩ := hops
  refine ⟨N + 1, ?_⟩
  intro fuel hfuel s hg
  obtain ⟨k, rfl⟩ : ∃ k, fuel = k + 1 := ⟨fuel - 1, by omega⟩
  have hkN : N ≤ k := by omega
  obtain ⟨top, tail, hst⟩ := saveStack_exists_cons s hg
  by_cases hrej : (n.props.alpha ≤ 0 ∨ (n.props.outlineShouldClip ∧ n.props.outlineIsEmpty)
      ∨ n.props.scaleX = 0 ∨ n.props.scaleY = 0)
  · refine ⟨s, ?_, ⟨rfl, rfl, rfl, Nat.le_refl _, MetaAll.marefl s⟩, hg⟩
    simp only [run]
    rw [if_pos hrej]
  · have hs1 : setSnap (fun _ => (applyNodeProps (curSnap s) n.props).1) s =
        { s with saveStack := (applyNodeProps (curSnap s) n.props).1 :: tail } :=
      setSnap_cons _ s top tail hst
    have hncS1 : NodeConc s
        { s with saveStack := (applyNodeProps (curSnap s) n.props).1 :: tail } := by
      refine ⟨?_, ?_, rfl, Nat.le_refl _, MetaAll.of_eq rfl⟩
      · rw [hst]
        rfl
      · rw [hst]
        rfl
    have hgS1 : GoodState
        { s with saveStack := (applyNodeProps (curSnap s) n.props).1 :: tail } :=
      ⟨List.cons_ne_nil _ _, hg.layerNe, hg.layerValid⟩
    by_cases hqr : quickRejectConservative (applyNodeProps (curSnap s) n.props).1
        (Rect.sized (Q.ofInt n.props.width) (Q.ofInt n.props.height)) = true
    · refine ⟨_, ?_, hncS1, hgS1⟩
      simp only [run]
      rw [if_neg hrej, if_pos hqr, hs1]
    · by_cases hhw : n.hwLayer = true
      · cases hbake : tryBakeLayerOp (applyNodeProps (curSnap s) n.props).1 n with
        | some bk =>
          refine ⟨appendCurrentEvent
              { s with saveStack := (applyNodeProps (curSnap s) n.props).1 :: tail }
              (LBEvent.unmergeable OpBatchType.Bitmap bk.clippedBounds), ?_, ?_, ?_⟩
          · simp only [run]
            rw [if_neg hrej, if_neg hqr, if_pos hhw, hbake, hs1]
          · refine ⟨?_, ?_, ?_, ?_, ?_⟩
            · rw [show appendCurrentEvent _ _ = modifyCurrent _ _ from rfl]
              unfold modifyCurrent
              rw [modifyAt_saveStack]
              exact hncS1.saveTail
            · rw [show appendCurrentEvent _ _ = modifyCurrent _ _ from rfl]
              unfold modifyCurrent
              rw [modifyAt_saveStack]
              exact hncS1.saveLen
            · rw [show appendCurrentEvent _ _ = modifyCurrent _ _ from rfl]
              unfold modifyCurrent
              rw [modifyAt_layerStack]
            · rw [show appendCurrentEvent _ _ = modifyCurrent _ _ from rfl]
              unfold modifyCurrent
              rw [modifyAt_length]
            · exact MetaAll.matrans
                (@MetaAll.of_eq s
                  { s with saveStack := (applyNodeProps (curSnap s) n.props).1 :: tail } rfl)
                (modifyAt_meta
                  { s with saveStack := (applyNodeProps (curSnap s) n.props).1 :: tail }
                  (currentLayerIdx
                    { s with saveStack := (applyNodeProps (curSnap s) n.props).1 :: tail })
                  (fun lb => { lb with events := lb.events ++
                    [LBEvent.unmergeable OpBatchType.Bitmap bk.clippedBounds] })
                  (fun x => ⟨rfl, rfl, rfl, rfl, rfl, rfl⟩))
          · refine GoodState.congr hgS1 ?_ ?_ ?_
            · rw [show appendCurrentEvent _ _ = modifyCurrent _ _ from rfl]
              unfold modifyCurrent
              rw [modifyAt_saveStack]
            · rw [show appendCurrentEvent _ _ = modifyCurrent _ _ from rfl]
              unfold modifyCurrent
              rw [modifyAt_layerStack]
            · rw [show appendCurrentEvent _ _ = modifyCurrent _ _ from rfl]
              unfold modifyCurrent
              rw [modifyAt_length]
        | none =>
          refine ⟨_, ?_, hncS1, hgS1⟩
          simp only [run]
          rw [if_neg hrej, if_neg hqr, if_pos hhw, hbake, hs1]
      · by_cases hslb : (applyNodeProps (curSnap s) n.props).2.isEmpty = true
        · obtain ⟨s2, hrun2, hops2, hg2⟩ := hN k hkN
            { s with saveStack := (applyNodeProps (curSnap s) n.props).1 :: tail } hgS1
          refine ⟨s2, ?_, ?_, hg2⟩
          · simp only [run]
            rw [if_neg hrej, if_neg hqr, if_neg hhw, if_neg (by simp [hslb]), hs1]
            exact hrun2
          · exact ⟨hops2.saveStack ▸ hncS1.saveTail, hops2.saveStack ▸ hncS1.saveLen,
              hops2.layerStack, hops2.lbLen, (MetaAll.of_eq rfl).matrans hops2.meta⟩
        · obtain ⟨sn2, w2, h2, rp2, hshape⟩ := deferBeginLayerOp_shape
            { s with saveStack := (applyNodeProps (curSnap s) n.props).1 :: tail }
            ⟨(applyNodeProps (curSnap s) n.props).2, Affine.identM, none,
              saveLayerPaint n.props.alpha⟩
          have hgood2 : GoodState
              { saveStack := sn2 :: (applyNodeProps (curSnap s) n.props).1 :: tail,
                layerBuilders := s.layerBuilders ++ [⟨w2, h2, rp2,
                  some ⟨(applyNodeProps (curSnap s) n.props).2, Affine.identM, none,
                    saveLayerPaint n.props.alpha⟩, none, [], []⟩],
                layerStack := s.layerBuilders.length :: s.layerStack } := by
            refine ⟨List.cons_ne_nil _ _, List.cons_ne_nil _ _, ?_⟩
            intro i hi
            simp only [List.mem_cons] at hi
            simp only [List.length_append, List.length_cons, List.length_nil]
            rcases hi with hi | hi
            · omega
            · have := hg.layerValid i hi
              omega
          obtain ⟨s3, hrun3, hops3, hg3⟩ := hN k hkN _ hgood2
          have hcb : currentBuilder s3 =
              s3.layerBuilders[s.layerBuilders.length]? := by
            unfold currentBuilder currentLayerIdx
            rw [hops3.layerStack]
            rfl
          obtain ⟨y, hy, m⟩ := hops3.meta s.layerBuilders.length
            ⟨w2, h2, rp2, some ⟨(applyNodeProps (curSnap s) n.props).2, Affine.identM, none,
              saveLayerPaint n.props.alpha⟩, none, [], []⟩
            (List.getElem?_concat_length _ _)
          have hlen2 : s.layerBuilders.length + 1 ≤ s3.layerBuilders.length := by
            have h1 := hops3.lbLen
            simp only [List.length_append, List.length_cons, List.length_nil] at h1
            omega
          obtain ⟨s4, hend, hsv4, hls4, hlen4, hmeta4⟩ := deferEndLayerOp_effect s3 y
            ⟨(applyNodeProps (curSnap s) n.props).2, Affine.identM, none,
              saveLayerPaint n.props.alpha⟩
            (hcb.trans hy) (by rw [m.beginLayerData])
            sn2 (applyNodeProps (curSnap s) n.props).1 tail (by rw [hops3.saveStack])
            s.layerBuilders.length s.layerStack (by rw [hops3.layerStack])
          refine ⟨s4, ?_, ?_, ?_⟩
          · simp only [run]
            rw [if_neg hrej, if_neg hqr, if_neg hhw, if_pos (by simp [hslb]), hs1, hshape,
              hrun3]
            simp only [Option.bind_eq_bind, Option.some_bind]
            exact hend
          · refine ⟨?_, ?_, hls4, ?_, ?_⟩
            · rw [hsv4, hst]
              rfl
            · rw [hsv4, hst]
              rfl
            · omega
            · exact ((MetaAll.of_eq rfl).matrans
                ((MetaAll.of_append _ rfl).matrans (hops3.meta.matrans hmeta4)))
          · refine ⟨by rw [hsv4]; exact List.cons_ne_nil _ _,
              by rw [hls4]; exact hg.layerNe, ?_⟩
            intro i hi
            rw [hls4] at hi
            have h1 := hg.layerValid i hi
            omega

theorem appendEventsAt_meta (s : FrameState) (i : Nat) (evs : List LBEvent) :
    MetaAll s (appendEventsAt s i evs) :=
  modifyAt_meta s i _ (fun x => ⟨rfl, rfl, rfl, rfl, rfl, rfl⟩)

theorem OpsConc.ofAppendEvents (s : FrameState) (i : Nat) (evs : List LBEvent) :
    OpsConc s (appendEventsAt s i evs) :=
  ⟨appendEventsAt_saveStack s i evs, appendEventsAt_layerStack s i evs,
   Nat.le_of_eq (appendEventsAt_length s i evs).symm, appendEventsAt_meta s i evs⟩

theorem restoreToCount_succ (s : FrameState) (c : Nat) (h : s.saveStack.length = c + 1) :
    restoreToCount c s = { s with saveStack := s.saveStack.tail } := by
  unfold restoreToCount
  rw [h]
  rw [show c + 1 - c = 1 from by omega]
  rw [List.drop_one]

theorem popUnclippedState_saveStack (s : FrameState) (lb : LayerBuilderM) (x : BakedM)
    (r : List BakedM) : (popUnclippedState s lb x r).saveStack = s.saveStack := rfl

theorem popUnclippedState_layerStack (s : FrameState) (lb : LayerBuilderM) (x : BakedM)
    (r : List BakedM) : (popUnclippedState s lb x r).layerStack = s.layerStack := rfl

theorem popUnclippedState_length (s : FrameState) (lb : LayerBuilderM) (x : BakedM)
    (r : List BakedM) :
    (popUnclippedState s lb x r).layerBuilders.length = s.layerBuilders.length := by
  unfold popUnclippedState
  simp

/-- Every balanced display-list segment terminates (given enough fuel)
from every good state, restoring both stacks and preserving builder
metadata. -/
theorem balRun : ∀ {l : List DLOp}, Bal l → RunOps l := by
  intro l hb
  induction hb with
  | nil =>
    refine ⟨1, fun fuel hf s hg => ?_⟩
    obtain ⟨k, rfl⟩ : ∃ k, fuel = k + 1 := ⟨fuel - 1, by omega⟩
    exact ⟨s, run_opsList_nil k s, OpsConc.ocrefl s, hg⟩
  | draw op l hop hbl ih =>
    obtain ⟨N, hN⟩ := ih
    refine ⟨max 2 N, fun fuel hf s hg => ?_⟩
    obtain ⟨m, rfl⟩ : ∃ m, fuel = m + 2 := ⟨fuel - 2, by omega⟩
    obtain ⟨evs, hop1⟩ := run_draw_effect op hop m s
    have hgood1 : GoodState (appendEventsAt s (currentLayerIdx s) evs) :=
      GoodState.congr hg (appendEventsAt_saveStack _ _ _) (appendEventsAt_layerStack _ _ _)
        (Nat.le_of_eq (appendEventsAt_length _ _ _).symm)
    obtain ⟨s2, hrest, hops, hg2⟩ := hN (m + 2) (by omega) _ hgood1
    refine ⟨s2, ?_, OpsConc.octrans (OpsConc.ofAppendEvents s _ evs) hops, hg2⟩
    rw [show m + 2 = (m + 1) + 1 from rfl, run_opsList_cons, hop1]
    simp only [Option.bind_eq_bind, Option.some_bind]
    exact hrest
  | node lm lc skip n l hn hl ihn ihl =>
    obtain ⟨Nn, hNn⟩ := nodeProps_of_ops n ihn
    obtain ⟨Nl, hNl⟩ := ihl
    refine ⟨max (Nn + 2) (max 2 Nl), fun fuel hf s hg => ?_⟩
    obtain ⟨m, rfl⟩ : ∃ m, fuel = m + 2 := ⟨fuel - 2, by omega⟩
    cases hskip : skip with
    | true =>
      obtain ⟨s2, hrest, hops, hg2⟩ := hNl (m + 2) (by omega) s hg
      refine ⟨s2, ?_, hops, hg2⟩
      rw [show m + 2 = (m + 1) + 1 from rfl, run_opsList_cons]
      have hstep : run (m + 1) s (FTask.oneOp (DLOp.renderNodeOp lm lc true n)) =
          some s := rfl
      rw [hstep]
      simp only [Option.bind_eq_bind, Option.some_bind]
      exact hrest
    | false =>
      cases hntd : n.nothingToDraw with
      | true =>
        obtain ⟨s2, hrest, hops, hg2⟩ := hNl (m + 2) (by omega) s hg
        refine ⟨s2, ?_, hops, hg2⟩
        rw [show m + 2 = (m + 1) + 1 from rfl, run_opsList_cons]
        have hstep : run (m + 1) s (FTask.oneOp (DLOp.renderNodeOp lm lc false n)) =
            some s := by
          simp only [run]
          rw [if_neg (by simp), if_pos hntd]
        rw [hstep]
        simp only [Option.bind_eq_bind, Option.some_bind]
        exact hrest
      | false =>
        obtain ⟨top, tail, hst⟩ := saveStack_exists_cons s hg
        have hg1 : GoodState (setSnap (fun sn => (sn.applyLocalClipS lc).concatS lm)
            (canvasSave s)) := by
          refine ⟨?_, hg.layerNe, hg.layerValid⟩
          unfold canvasSave
          rw [setSnap_cons _ _ (curSnap s) s.saveStack rfl]
          exact List.cons_ne_nil _ _
        obtain ⟨s2, hrun2, hnc2, hg2⟩ := hNn m (by omega) _ hg1
        have hs1eq : setSnap (fun sn => (sn.applyLocalClipS lc).concatS lm) (canvasSave s) =
            { s with saveStack :=
                ((curSnap s).applyLocalClipS lc).concatS lm :: s.saveStack } :=
          setSnap_cons _ _ (curSnap s) s.saveStack rfl
        have hsv2 : s2.saveStack.tail = s.saveStack := by
          rw [hnc2.saveTail, hs1eq]
          rfl
        have hln2 : s2.saveStack.length = s.saveStack.length + 1 := by
          rw [hnc2.saveLen, hs1eq]
          rfl
        have hres : restoreToCount s.saveStack.length s2 =
            { s2 with saveStack := s2.saveStack.tail } :=
          restoreToCount_succ s2 _ hln2
        have hops1 : OpsConc s { s2 with saveStack := s2.saveStack.tail } := by
          refine ⟨by rw [hsv2], ?_, ?_, ?_⟩
          · show s2.layerStack = s.layerStack
            rw [hnc2.layerStack, hs1eq]
          · show s.layerBuilders.length ≤ s2.layerBuilders.length
            have := hnc2.lbLen
            rw [hs1eq] at this
            exact this
          · have hmeta := hnc2.meta
            rw [hs1eq] at hmeta
            exact MetaAll.matrans (MetaAll.of_eq rfl) hmeta
        have hgood2 : GoodState { s2 with saveStack := s2.saveStack.tail } :=
          GoodState.congr hg hops1.saveStack hops1.layerStack hops1.lbLen
        obtain ⟨s3, hrest, hops3, hg3⟩ := hNl (m + 2) (by omega) _ hgood2
        refine ⟨s3, ?_, OpsConc.octrans hops1 hops3, hg3⟩
        rw [show m + 2 = (m + 1) + 1 from rfl, run_opsList_cons]
        have hstep : run (m + 1) s (FTask.oneOp (DLOp.renderNodeOp lm lc false n)) =
            some (restoreToCount s.saveStack.length s2) := by
          simp only [run]
          rw [if_neg (by simp), if_neg (by simp [hntd]), hrun2]
          rfl
        rw [hstep]
        simp only [Option.bind_eq_bind, Option.some_bind]
        rw [hres]
        exact hrest
  | layer d inner rest hin hre ihin ihre =>
    obtain ⟨Ni, hNi⟩ := ihin
    obtain ⟨Nr, hNr⟩ := ihre
    refine ⟨max 2 (max Ni Nr), fun fuel hf s hg => ?_⟩
    obtain ⟨m, rfl⟩ : ∃ m, fuel = m + 2 := ⟨fuel - 2, by omega⟩
    obtain ⟨top, tail, hst⟩ := saveStack_exists_cons s hg
    obtain ⟨sn2, w2, h2, rp2, hshape⟩ := deferBeginLayerOp_shape s d
    have hgood2 : GoodState
        { saveStack := sn2 :: s.saveStack,
          layerBuilders := s.layerBuilders ++ [⟨w2, h2, rp2, some d, none, [], []⟩],
          layerStack := s.layerBuilders.length :: s.layerStack } := by
      refine ⟨List.cons_ne_nil _ _, List.cons_ne_nil _ _, ?_⟩
      intro i hi
      simp only [List.mem_cons] at hi
      simp only [List.length_append, List.length_cons, List.length_nil]
      rcases hi with hi | hi
      · omega
      · have := hg.layerValid i hi
        omega
    obtain ⟨s3, hrun3, hops3, hg3⟩ := hNi (m + 2) (by omega) _ hgood2
    have hcb : currentBuilder s3 = s3.layerBuilders[s.layerBuilders.length]? := by
      unfold currentBuilder currentLayerIdx
      rw [hops3.layerStack]
      rfl
    obtain ⟨y, hy, hm⟩ := hops3.meta s.layerBuilders.length
      ⟨w2, h2, rp2, some d, none, [], []⟩ (List.getElem?_concat_length _ _)
    have hlen2 : s.layerBuilders.length + 1 ≤ s3.layerBuilders.length := by
      have h1 := hops3.lbLen
      simp only [List.length_append, List.length_cons, List.length_nil] at h1
      omega
    obtain ⟨s4, hend, hsv4, hls4, hlen4, hmeta4⟩ := deferEndLayerOp_effect s3 y d
      (hcb.trans hy) (by rw [hm.beginLayerData])
      sn2 top tail (by rw [hops3.saveStack]; show sn2 :: s.saveStack = _; rw [hst])
      s.layerBuilders.length s.layerStack (by rw [hops3.layerStack])
    have hops4 : OpsConc s s4 := by
      refine ⟨?_, hls4, ?_, ?_⟩
      · rw [hsv4, hst]
      · omega
      · exact (MetaAll.of_append _ rfl).matrans (hops3.meta.matrans hmeta4)
    have hgood4 : GoodState s4 := GoodState.congr hg hops4.saveStack hops4.layerStack hops4.lbLen
    obtain ⟨s5, hrun5, hops5, hg5⟩ := hNr (m + 2) (by omega) _ hgood4
    refine ⟨s5, ?_, OpsConc.octrans hops4 hops5, hg5⟩
    rw [show m + 2 = (m + 1) + 1 from rfl, run_opsList_cons]
    have hstep : run (m + 1) s (FTask.oneOp (DLOp.beginLayerOp d)) =
        some (deferBeginLayerOp s d) := rfl
    rw [hstep, hshape]
    simp only [Option.bind_eq_bind, Option.some_bind]
    rw [run_opsList_append, hrun3]
    simp only [Option.bind_eq_bind, Option.some_bind]
    rw [run_opsList_cons]
    have hstep2 : run (m + 1) s3 (FTask.oneOp DLOp.endLayerOp) = deferEndLayerOp s3 := rfl
    rw [hstep2, hend]
    simp only [Option.bind_eq_bind, Option.some_bind]
    exact hrun5
  | unclipped d inner rest hin hre ihin ihre =>
    obtain ⟨Ni, hNi⟩ := ihin
    obtain ⟨Nr, hNr⟩ := ihre
    refine ⟨max 2 (max Ni Nr), fun fuel hf s hg => ?_⟩
    obtain ⟨m, rfl⟩ : ∃ m, fuel = m + 2 := ⟨fuel - 2, by omega⟩
    obtain ⟨i0, lst0, hls0⟩ := layerStack_exists_cons s hg
    have hidx : currentLayerIdx s = i0 := by
      unfold currentLayerIdx
      rw [hls0]
      rfl
    have hltIdx : currentLayerIdx s < s.layerBuilders.length := by
      rw [hidx]
      exact hg.layerValid i0 (by rw [hls0]; exact List.mem_cons_self _ _)
    obtain ⟨lb, hcbS⟩ : ∃ lb, currentBuilder s = some lb := by
      unfold currentBuilder
      exact ⟨_, List.getElem?_eq_getElem hltIdx⟩
    have hbegin := deferBeginUnclipped_effect s d lb hcbS
    have hgoodB : GoodState (beginUnclippedState s d lb) := by
      refine GoodState.congr hg rfl rfl ?_
      show s.layerBuilders.length ≤ (s.layerBuilders.set _ _).length
      simp
    obtain ⟨s3, hrun3, hops3, hg3⟩ := hNi (m + 2) (by omega) _ hgoodB
    have hcbB : currentBuilder (beginUnclippedState s d lb) =
        some (beginUnclippedBuilder (curSnap s) d lb) :=
      currentBuilder_set_current' s _ hltIdx
    obtain ⟨y, hy, hm⟩ := hops3.meta (currentLayerIdx s)
      (beginUnclippedBuilder (curSnap s) d lb) hcbB
    have hcb3 : currentBuilder s3 = some y := by
      unfold currentBuilder
      rw [show currentLayerIdx s3 = currentLayerIdx s from by
        unfold currentLayerIdx
        rw [hops3.layerStack]
        rfl]
      exact hy
    have hyun : y.unclipped = unclippedCopyFromOp (curSnap s) d lb :: lb.unclipped := by
      rw [hm.unclipped]
      rfl
    have hend := deferEndUnclipped_effect s3 y (unclippedCopyFromOp (curSnap s) d lb)
      lb.unclipped hcb3 hyun
    have hops4 : OpsConc s (popUnclippedState s3 y (unclippedCopyFromOp (curSnap s) d lb)
        lb.unclipped) := by
      refine ⟨?_, ?_, ?_, ?_⟩
      · rw [popUnclippedState_saveStack, hops3.saveStack]
        rfl
      · rw [popUnclippedState_layerStack, hops3.layerStack]
        rfl
      · rw [popUnclippedState_length]
        have h1 := hops3.lbLen
        have h2 : (beginUnclippedState s d lb).layerBuilders.length =
            s.layerBuilders.length := by
          show (s.layerBuilders.set _ _).length = _
          simp
        omega
      · intro j x hx
        by_cases hji : j = currentLayerIdx s
        · subst hji
          have h1 : currentBuilder s = some x := hx
          rw [hcbS] at h1
          have hxlb : lb = x := Option.some.inj h1
          subst hxlb
          refine ⟨{ y with
              events := y.events ++ [LBEvent.unmergeable OpBatchType.CopyFromLayer
                (unclippedCopyFromOp (curSnap s) d lb).clippedBounds],
              unclipped := lb.unclipped }, ?_, ?_⟩
          · show (popUnclippedState s3 y _ _).layerBuilders[currentLayerIdx s]? = _
            unfold popUnclippedState
            rw [show currentLayerIdx s3 = currentLayerIdx s from by
              unfold currentLayerIdx
              rw [hops3.layerStack]
              rfl]
            show (s3.layerBuilders.set (currentLayerIdx s) _)[currentLayerIdx s]? = _
            rw [List.getElem?_set_eq_of_lt]
            have h1 := hops3.lbLen
            have h2 : (beginUnclippedState s d lb).layerBuilders.length =
                s.layerBuilders.length := by
              show (s.layerBuilders.set _ _).length = _
              simp
            omega
          · refine ⟨?_, ?_, ?_, ?_, ?_, rfl⟩
            · show y.width = lb.width
              rw [hm.width]
              rfl
            · show y.height = lb.height
              rw [hm.height]
              rfl
            · show y.repaintRect = lb.repaintRect
              rw [hm.repaintRect]
              rfl
            · show y.beginLayerData = lb.beginLayerData
              rw [hm.beginLayerData]
              rfl
            · show y.nodeId = lb.nodeId
              rw [hm.nodeId]
              rfl
        · have hxB : (beginUnclippedState s d lb).layerBuilders[j]? = some x := by
            show (s.layerBuilders.set (currentLayerIdx s) _)[j]? = some x
            rw [List.getElem?_set_ne (fun he => hji he.symm)]
            exact hx
          obtain ⟨z, hz, mz⟩ := hops3.meta j x hxB
          refine ⟨z, ?_, mz⟩
          show (popUnclippedState s3 y _ _).layerBuilders[j]? = some z
          unfold popUnclippedState
          rw [show currentLayerIdx s3 = currentLayerIdx s from by
            unfold currentLayerIdx
            rw [hops3.layerStack]
            rfl]
          show (s3.layerBuilders.set (currentLayerIdx s) _)[j]? = some z
          rw [List.getElem?_set_ne (fun he => hji he.symm)]
          exact hz
    have hgood4 : GoodState (popUnclippedState s3 y (unclippedCopyFromOp (curSnap s) d lb)
        lb.unclipped) := GoodState.congr hg hops4.saveStack hops4.layerStack hops4.lbLen
    obtain ⟨s5, hrun5, hops5, hg5⟩ := hNr (m + 2) (by omega) _ hgood4
    refine ⟨s5, ?_, OpsConc.octrans hops4 hops5, hg5⟩
    rw [show m + 2 = (m + 1) + 1 from rfl, run_opsList_cons]
    have hstep : run (m + 1) s (FTask.oneOp (DLOp.beginUnclippedLayerOp d)) =
        some (deferBeginUnclippedLayerOp s d) := rfl
    rw [hstep, hbegin]
    simp only [Option.bind_eq_bind, Option.some_bind]
    rw [run_opsList_append, hrun3]
    simp only [Option.bind_eq_bind, Option.some_bind]
    rw [run_opsList_cons]
    have hstep2 : run (m + 1) s3 (FTask.oneOp DLOp.endUnclippedLayerOp) =
        deferEndUnclippedLayerOp s3 := rfl
    rw [hstep2, hend]
    simp only [Option.bind_eq_bind, Option.some_bind]
    exact hrun5

/-- The op list of a layer-update entry's display list (empty when the
node has none). -/
def entryOpsList (e : LayerEntry) : List DLOp :=
  match e.renderNode.displayList with
  | some (DisplayList.mk ops) => ops
  | none => []

/-- Explicit result of `restoreForLayer` on a state with at least two
snapshots and a non-empty layer stack. -/
theorem restoreForLayer_of (s : FrameState) (sn h : Snapshot) (t : List Snapshot)
    (hsv : s.saveStack = sn :: h :: t) (i : Nat) (lst : List Nat)
    (hls : s.layerStack = i :: lst) :
    restoreForLayer s = some { s with saveStack := h :: t, layerStack := lst } := by
  obtain ⟨ss, lbs, lstk⟩ := s
  dsimp only at hsv hls
  subst hsv hls
  rfl

/-- `processLayerEntry` on an entry whose display list is balanced:
succeeds with both stacks restored exactly, builders only appended. -/
theorem processLayerEntry_effect (e : LayerEntry) (hb : Bal (entryOpsList e)) :
    ∃ N : Nat, ∀ fuel, N ≤ fuel → ∀ s : FrameState, GoodState s →
      ∃ s', processLayerEntry fuel s e = some s'
        ∧ s'.saveStack = s.saveStack ∧ s'.layerStack = s.layerStack
        ∧ s.layerBuilders.length ≤ s'.layerBuilders.length ∧ GoodState s' := by
  obtain ⟨N, hN⟩ := balRun hb
  refine ⟨N, fun fuel hf s hg => ?_⟩
  obtain ⟨top, tail, hst⟩ := saveStack_exists_cons s hg
  have hpush : ∀ (sn2 : Snapshot) (lb2 : LayerBuilderM),
      GoodState ⟨sn2 :: s.saveStack, s.layerBuilders ++ [lb2],
        s.layerBuilders.length :: s.layerStack⟩ := by
    intro sn2 lb2
    refine ⟨List.cons_ne_nil _ _, List.cons_ne_nil _ _, ?_⟩
    intro i hi
    simp only [List.mem_cons] at hi
    simp only [List.length_append, List.length_cons, List.length_nil]
    rcases hi with hi | hi
    · omega
    · have := hg.layerValid i hi
      omega
  simp only [processLayerEntry]
  rw [saveForLayer_eq]
  cases hdl : e.renderNode.displayList with
  | none =>
    simp only [Option.bind_eq_bind, Option.some_bind]
    refine ⟨_, restoreForLayer_of _ _ top tail (by rw [hst]) s.layerBuilders.length
      s.layerStack rfl, ?_, rfl, ?_, ?_⟩
    · show top :: tail = s.saveStack
      rw [hst]
    · show s.layerBuilders.length ≤ (s.layerBuilders ++ [_]).length
      simp
    · refine GoodState.congr hg ?_ rfl ?_
      · show top :: tail = s.saveStack
        rw [hst]
      · show s.layerBuilders.length ≤ (s.layerBuilders ++ [_]).length
        simp
  | some dl =>
    cases dl with
    | mk ops =>
      simp only [entryOpsList, hdl] at hN
      obtain ⟨s2, hrun2, hc2, hg2⟩ := hN fuel hf _ (hpush _ _)
      dsimp only
      rw [hrun2]
      simp only [Option.bind_eq_bind, Option.some_bind]
      have hsv2 : ∃ sn3, s2.saveStack = sn3 :: top :: tail := by
        rw [hc2.saveStack, hst]
        exact ⟨_, rfl⟩
      obtain ⟨sn3, hsv2⟩ := hsv2
      have hls2 : s2.layerStack = s.layerBuilders.length :: s.layerStack := by
        rw [hc2.layerStack]
      have hle2 : s.layerBuilders.length ≤ s2.layerBuilders.length := by
        refine le_trans ?_ hc2.lbLen
        show s.layerBuilders.length ≤ (s.layerBuilders ++ [_]).length
        simp
      refine ⟨_, restoreForLayer_of s2 sn3 top tail hsv2 s.layerBuilders.length
        s.layerStack hls2, ?_, rfl, hle2, ?_⟩
      · show top :: tail = s.saveStack
        rw [hst]
      · refine GoodState.congr hg ?_ rfl hle2
        show top :: tail = s.saveStack
        rw [hst]

/-- Folding `processLayerEntry` over balanced entries restores both
stacks exactly. -/
theorem entriesFold_effect :
    ∀ (entries : List LayerEntry), (∀ e ∈ entries, Bal (entryOpsList e)) →
      ∃ N : Nat, ∀ fuel, N ≤ fuel → ∀ s : FrameState, GoodState s →
        ∃ s', entries.foldlM (processLayerEntry fuel) s = some s'
          ∧ s'.saveStack = s.saveStack ∧ s'.layerStack = s.layerStack
          ∧ s.layerBuilders.length ≤ s'.layerBuilders.length ∧ GoodState s' := by
  intro entries
  induction entries with
  | nil =>
    intro _
    exact ⟨0, fun fuel _ s hg => ⟨s, rfl, rfl, rfl, Nat.le_refl _, hg⟩⟩
  | cons e rest ih =>
    intro hall
    obtain ⟨N1, h1⟩ := processLayerEntry_effect e (hall e (List.mem_cons_self _ _))
    obtain ⟨N2, h2⟩ := ih (fun x hx => hall x (List.mem_cons_of_mem _ hx))
    refine ⟨max N1 N2, fun fuel hf s hg => ?_⟩
    obtain ⟨s1, hp1, hsv1, hls1, hle1, hg1⟩ := h1 fuel (le_trans (le_max_left _ _) hf) s hg
    obtain ⟨s2, hp2, hsv2, hls2, hle2, hg2⟩ := h2 fuel (le_trans (le_max_right _ _) hf) s1 hg1
    refine ⟨s2, ?_, by rw [hsv2, hsv1], by rw [hls2, hls1], le_trans hle1 hle2, hg2⟩
    rw [List.foldlM_cons, hp1]
    simp only [Option.bind_eq_bind, Option.some_bind]
    exact hp2

/-- Folding the root-node step of the constructor over nodes that run
to completion restores both stacks exactly. -/
theorem rootsFold_effect :
    ∀ (nodes : List RenderNode), (∀ n ∈ nodes, RunNode n) →
      ∃ N : Nat, ∀ fuel, N ≤ fuel → ∀ s : FrameState, GoodState s →
        ∃ s', nodes.foldlM (fun st n =>
            if n.nothingToDraw then some st
            else
              let count := st.saveStack.length
              (run fuel (canvasSave st) (FTask.nodePropsAndOps n)).map (restoreToCount count)) s
          = some s'
          ∧ s'.saveStack = s.saveStack ∧ s'.layerStack = s.layerStack
          ∧ s.layerBuilders.length ≤ s'.layerBuilders.length ∧ GoodState s'
          ∧ MetaAll s s' := by
  intro nodes
  induction nodes with
  | nil =>
    intro _
    exact ⟨0, fun fuel _ s hg => ⟨s, rfl, rfl, rfl, Nat.le_refl _, hg, MetaAll.of_eq rfl⟩⟩
  | cons n rest ih =>
    intro hall
    obtain ⟨N1, h1⟩ := hall n (List.mem_cons_self _ _)
    obtain ⟨N2, h2⟩ := ih (fun x hx => hall x (List.mem_cons_of_mem _ hx))
    refine ⟨max N1 N2, fun fuel hf s hg => ?_⟩
    cases hntd : n.nothingToDraw with
    | true =>
      obtain ⟨s2, hp2, hsv2, hls2, hle2, hg2, hm2⟩ :=
        h2 fuel (le_trans (le_max_right _ _) hf) s hg
      refine ⟨s2, ?_, hsv2, hls2, hle2, hg2, hm2⟩
      have hstep : (if n.nothingToDraw = true then some s
          else (run fuel (canvasSave s) (FTask.nodePropsAndOps n)).map
            (restoreToCount s.saveStack.length)) = some s := if_pos hntd
      simp only [List.foldlM_cons]
      rw [hstep]
      simp only [Option.bind_eq_bind, Option.some_bind]
      exact hp2
    | false =>
      have hg1 : GoodState (canvasSave s) := ⟨List.cons_ne_nil _ _, hg.layerNe, hg.layerValid⟩
      obtain ⟨s1, hrun1, hnc1, hg1s⟩ := h1 fuel (le_trans (le_max_left _ _) hf) _ hg1
      have hln1 : s1.saveStack.length = s.saveStack.length + 1 := by
        rw [hnc1.saveLen]
        rfl
      have hres := restoreToCount_succ s1 _ hln1
      have hsvr : ({ s1 with saveStack := s1.saveStack.tail } : FrameState).saveStack
          = s.saveStack := by
        show s1.saveStack.tail = s.saveStack
        rw [hnc1.saveTail]
        rfl
      have hlsr : ({ s1 with saveStack := s1.saveStack.tail } : FrameState).layerStack
          = s.layerStack := by
        show s1.layerStack = s.layerStack
        rw [hnc1.layerStack]
        rfl
      have hler : s.layerBuilders.length ≤
          ({ s1 with saveStack := s1.saveStack.tail } : FrameState).layerBuilders.length := by
        show s.layerBuilders.length ≤ s1.layerBuilders.length
        exact hnc1.lbLen
      have hgr : GoodState { s1 with saveStack := s1.saveStack.tail } :=
        GoodState.congr hg hsvr hlsr hler
      obtain ⟨s2, hp2, hsv2, hls2, hle2, hg2, hm2⟩ :=
        h2 fuel (le_trans (le_max_right _ _) hf) _ hgr
      refine ⟨s2, ?_, by rw [hsv2, hsvr], by rw [hls2, hlsr], le_trans hler hle2, hg2,
        ((@MetaAll.of_eq s (canvasSave s) rfl).matrans (hnc1.meta.matrans
          (@MetaAll.of_eq s1 { s1 with saveStack := s1.saveStack.tail } rfl))).matrans hm2⟩
      simp only [List.foldlM_cons, hntd, Bool.false_eq_true, if_false]
      rw [hrun1]
      show some (restoreToCount s.saveStack.length s1) >>= _ = _
      rw [hres]
      simp only [Option.bind_eq_bind, Option.some_bind]
      exact hp2

/-- C6: for every input whose per-entry display lists and root nodes
use layer and save-layer ops in balanced (properly nested) fashion,
`FrameBuilder` construction completes with layer stack exactly `[0]`
and the save stack back at its initial depth 1. -/
theorem frameBuilder_balanced_stacks (layers : List LayerEntry) (clip : Rect)
    (vpWidth vpHeight : Q) (nodes : List RenderNode) (lightCenter : V3)
    (hents : ∀ e ∈ layers, Bal (entryOpsList e))
    (hroots : ∀ n ∈ nodes, Bal (nodeOpsList n)) :
    ∃ (fuel : Nat) (s : FrameState),
      frameBuild fuel layers clip vpWidth vpHeight nodes lightCenter = some s
        ∧ s.layerStack = [0] ∧ s.saveStack.length = 1 := by
  obtain ⟨N1, h1⟩ := entriesFold_effect layers.reverse
    (fun e he => hents e (List.mem_reverse.mp he))
  obtain ⟨N2, h2⟩ := rootsFold_effect nodes
    (fun n hn => nodeProps_of_ops n (balRun (hroots n hn)))
  have hg0 : GoodState (initFrameState clip vpWidth vpHeight lightCenter) := by
    refine ⟨List.cons_ne_nil _ _, List.cons_ne_nil _ _, ?_⟩
    intro i hi
    simp only [initFrameState, List.mem_cons, List.not_mem_nil, or_false] at hi
    subst hi
    simp [initFrameState]
  obtain ⟨s1, hp1, hsv1, hls1, hle1, hg1⟩ := h1 (max N1 N2) (le_max_left _ _) _ hg0
  obtain ⟨s2, hp2, hsv2, hls2, hle2, hg2, hmr2⟩ := h2 (max N1 N2) (le_max_right _ _) s1 hg1
  refine ⟨max N1 N2, s2, ?_, ?_, ?_⟩
  · unfold frameBuild
    rw [hp1]
    simp only [Option.bind_eq_bind, Option.some_bind]
    exact hp2
  · rw [hls2, hls1]
    rfl
  · rw [hsv2, hsv1]
    rfl

/-- A display list wrapping a draw in a save-layer pair, preceded by a
plain draw. -/
def c6Ops : List DLOp :=
  [DLOp.rectOp ⟨⟨1, 1, 3, 3⟩, Affine.identM, none, basePaint⟩,
   DLOp.beginLayerOp ⟨⟨0, 0, 5, 5⟩, Affine.identM, none, basePaint⟩,
   DLOp.rectOp ⟨⟨1, 1, 2, 2⟩, Affine.identM, none, basePaint⟩,
   DLOp.endLayerOp]

/-- Balance certificate for `c6Ops`. -/
theorem c6OpsBal : Bal c6Ops :=
  Bal.draw _ _ rfl
    (Bal.layer _ [DLOp.rectOp ⟨⟨1, 1, 2, 2⟩, Affine.identM, none, basePaint⟩] []
      (Bal.draw _ _ rfl Bal.nil) Bal.nil)

/-- Non-rejected node carrying `c6Ops`. -/
def c6Node : RenderNode :=
  RenderNode.mk 7
    ⟨1, 0, 0, 0, 0, 1, 1, none, none, false, false, Affine.identM, 50, 50,
     false, false, false, false, ⟨0, 0, 0, 0⟩, false, ⟨0, 0, 0, 0⟩, 0, false, false, false⟩
    false false Affine.identM (some (DisplayList.mk c6Ops))

def c6Entry : LayerEntry := ⟨c6Node, ⟨0, 0, 50, 50⟩⟩

/-- Witness for C6: one layer-update entry and one root node, each
wrapping a draw in a save-layer pair. -/
theorem frameBuilder_balanced_stacks_witness :
    ∃ (fuel : Nat) (s : FrameState),
      frameBuild fuel [c6Entry] baseClip 100 100 [c6Node] ⟨50, 50, 200⟩ = some s
        ∧ s.layerStack = [0] ∧ s.saveStack.length = 1 :=
  frameBuilder_balanced_stacks [c6Entry] baseClip 100 100 [c6Node] ⟨50, 50, 200⟩
    (fun e he => by
      cases he with
      | head => exact c6OpsBal
      | tail _ h => cases h)
    (fun n hn => by
      cases hn with
      | head => exact c6OpsBal
      | tail _ h => cases h)

/-! ### C4 — reverse-order layer emission -/

/-- Running a draws-only segment then `restoreForLayer`: pops exactly
the top snapshot and the top layer index, touching only the events of
the current builder. -/
theorem drawsRun_restore (ops : List DLOp) (hd : ∀ op ∈ ops, isDrawOp op = true)
    (fuel : Nat) (s0 : FrameState) (sn hsnap : Snapshot) (t : List Snapshot)
    (hsv : s0.saveStack = sn :: hsnap :: t) (i : Nat) (lst : List Nat)
    (hls : s0.layerStack = i :: lst) :
    ∃ s', (run (fuel + 2) s0 (FTask.opsList ops)).bind restoreForLayer = some s'
      ∧ s'.saveStack = hsnap :: t ∧ s'.layerStack = lst
      ∧ ∃ evs, s'.layerBuilders = (appendEventsAt s0 i evs).layerBuilders := by
  obtain ⟨evs, hfold⟩ := draws_fold_effect ops hd fuel s0
  have hrun : run (fuel + 2) s0 (FTask.opsList ops)
      = some (appendEventsAt s0 (currentLayerIdx s0) evs) := hfold
  have hidx : currentLayerIdx s0 = i := by
    unfold currentLayerIdx
    rw [hls]
    rfl
  rw [hrun]
  simp only [Option.bind_eq_bind, Option.some_bind]
  refine ⟨_, restoreForLayer_of _ sn hsnap t ?_ i lst ?_, rfl, rfl, evs, ?_⟩
  · rw [appendEventsAt_saveStack, hsv]
  · rw [appendEventsAt_layerStack, hls]
  · show (appendEventsAt s0 (currentLayerIdx s0) evs).layerBuilders = _
    rw [hidx]

/-- `appendEventsAt` at the index of a just-appended builder. -/
theorem appendEventsAt_concat (s0 : FrameState) (l : List LayerBuilderM)
    (lb0 : LayerBuilderM) (hlb : s0.layerBuilders = l ++ [lb0]) (evs : List LBEvent) :
    (appendEventsAt s0 l.length evs).layerBuilders
      = l ++ [{ lb0 with events := lb0.events ++ evs }] := by
  unfold appendEventsAt modifyAt
  rw [hlb, List.getElem?_concat_length]
  dsimp only
  rw [set_concat_length]

/-- `processLayerEntry` on a draws-only entry: both stacks restored,
exactly one builder appended at the old length carrying the entry
node's id, all pre-existing builders metadata-preserved in place. -/
theorem processEntry_draws (e : LayerEntry)
    (hd : ∀ op ∈ entryOpsList e, isDrawOp op = true) (fuel : Nat) (s : FrameState)
    (hne : s.saveStack ≠ []) :
    ∃ s', processLayerEntry (fuel + 2) s e = some s'
      ∧ s'.saveStack = s.saveStack ∧ s'.layerStack = s.layerStack
      ∧ s'.layerBuilders.length = s.layerBuilders.length + 1
      ∧ (∃ lb, s'.layerBuilders[s.layerBuilders.length]? = some lb
          ∧ lb.nodeId = some e.renderNode.nodeId)
      ∧ MetaAll s s' := by
  obtain ⟨top, tail, hst⟩ : ∃ a t, s.saveStack = a :: t := by
    cases h : s.saveStack with
    | nil => exact absurd h hne
    | cons a t => exact ⟨a, t, rfl⟩
  simp only [processLayerEntry]
  rw [saveForLayer_eq]
  cases hdl : e.renderNode.displayList with
  | none =>
    simp only [Option.bind_eq_bind, Option.some_bind]
    refine ⟨_, restoreForLayer_of _ _ top tail (by rw [hst]) s.layerBuilders.length
      s.layerStack rfl, ?_, rfl, ?_, ?_, ?_⟩
    · show top :: tail = s.saveStack
      rw [hst]
    · show (s.layerBuilders ++ [_]).length = s.layerBuilders.length + 1
      simp
    · refine ⟨⟨Q.ofInt e.renderNode.props.width, Q.ofInt e.renderNode.props.height, e.damage,
          none, some e.renderNode.nodeId, [], []⟩, ?_, rfl⟩
      show (s.layerBuilders ++ [_])[s.layerBuilders.length]? = _
      rw [List.getElem?_concat_length]
    · exact MetaAll.of_append _ rfl
  | some dl =>
    cases dl with
    | mk ops =>
      simp only [entryOpsList, hdl] at hd
      dsimp only
      obtain ⟨s', h1, h2, h3, evs, h4⟩ := drawsRun_restore ops hd fuel
        ⟨_ :: s.saveStack,
          s.layerBuilders ++
            [⟨Q.ofInt e.renderNode.props.width, Q.ofInt e.renderNode.props.height, e.damage,
              none, some e.renderNode.nodeId, [], []⟩],
          s.layerBuilders.length :: s.layerStack⟩
        _ top tail (by rw [hst]) s.layerBuilders.length s.layerStack rfl
      rw [h1]
      refine ⟨s', rfl, ?_, h3, ?_, ?_, ?_⟩
      · rw [h2, hst]
      · rw [h4, appendEventsAt_length]
        show (s.layerBuilders ++ [_]).length = s.layerBuilders.length + 1
        simp
      · refine ⟨⟨Q.ofInt e.renderNode.props.width, Q.ofInt e.renderNode.props.height,
            e.damage, none, some e.renderNode.nodeId, evs, []⟩, ?_, rfl⟩
        rw [h4, appendEventsAt_concat _ s.layerBuilders _ rfl,
          List.getElem?_concat_length]
        rfl
      · exact MetaAll.of_append _
          (by rw [h4, appendEventsAt_concat _ s.layerBuilders _ rfl])

/-- Folding `processLayerEntry` over draws-only entries: the k-th
processed entry's builder lands at index (old length + k), and every
pre-existing builder keeps its index and metadata. -/
theorem entriesFold_draws :
    ∀ (entries : List LayerEntry),
      (∀ e ∈ entries, ∀ op ∈ entryOpsList e, isDrawOp op = true) →
      ∀ (fuel : Nat) (s : FrameState), s.saveStack ≠ [] →
      ∃ s', entries.foldlM (processLayerEntry (fuel + 2)) s = some s'
        ∧ s'.saveStack = s.saveStack ∧ s'.layerStack = s.layerStack
        ∧ s'.layerBuilders.length = s.layerBuilders.length + entries.length
        ∧ (∀ (k : Nat) (e : LayerEntry), entries[k]? = some e →
            ∃ lb, s'.layerBuilders[s.layerBuilders.length + k]? = some lb
              ∧ lb.nodeId = some e.renderNode.nodeId)
        ∧ MetaAll s s' := by
  intro entries
  induction entries with
  | nil =>
    intro _ fuel s hne
    refine ⟨s, rfl, rfl, rfl, rfl, ?_, MetaAll.of_eq rfl⟩
    intro k e hk
    simp at hk
  | cons e rest ih =>
    intro hall fuel s hne
    obtain ⟨s1, hp1, hsv1, hls1, hlen1, ⟨lbE, hlbE, hid⟩, hm1⟩ :=
      processEntry_draws e (hall e (List.mem_cons_self _ _)) fuel s hne
    obtain ⟨s2, hp2, hsv2, hls2, hlen2, hidx2, hm2⟩ :=
      ih (fun x hx op hop => hall x (List.mem_cons_of_mem _ hx) op hop) fuel s1
        (by rw [hsv1]; exact hne)
    refine ⟨s2, ?_, by rw [hsv2, hsv1], by rw [hls2, hls1], ?_, ?_, hm1.matrans hm2⟩
    · rw [List.foldlM_cons, hp1]
      simp only [Option.bind_eq_bind, Option.some_bind]
      exact hp2
    · rw [hlen2, hlen1]
      simp only [List.length_cons]
      omega
    · intro k e' hk
      cases k with
      | zero =>
        rw [List.getElem?_cons_zero] at hk
        cases hk
        obtain ⟨y, hy, hmp⟩ := hm2 s.layerBuilders.length lbE hlbE
        refine ⟨y, ?_, by rw [hmp.nodeId, hid]⟩
        show s2.layerBuilders[s.layerBuilders.length]? = some y
        exact hy
      | succ k2 =>
        rw [List.getElem?_cons_succ] at hk
        obtain ⟨lb, hlb, hnid⟩ := hidx2 k2 e' hk
        refine ⟨lb, ?_, hnid⟩
        have harith : s.layerBuilders.length + (k2 + 1) = s1.layerBuilders.length + k2 := by
          rw [hlen1]
          omega
        rw [harith]
        exact hlb

/-- C4 (amended): the constructor processes the layer-update entries
in reverse index order.  When every entry's display list is plain
draws (no nested layers) and the root nodes are balanced, entry i of N
lands at builder index N - i — equivalently, the non-primary index j
(1 ≤ j ≤ N) corresponds to entry N - j — and index 0 stays the
primary framebuffer (no node id). -/
theorem frameBuilder_reverse_entry_order (layers : List LayerEntry) (clip : Rect)
    (vpWidth vpHeight : Q) (nodes : List RenderNode) (lightCenter : V3)
    (hdraws : ∀ e ∈ layers, ∀ op ∈ entryOpsList e, isDrawOp op = true)
    (hroots : ∀ n ∈ nodes, Bal (nodeOpsList n)) :
    ∃ (fuel : Nat) (s : FrameState),
      frameBuild fuel layers clip vpWidth vpHeight nodes lightCenter = some s
        ∧ (∀ (i : Nat) (e : LayerEntry), layers[i]? = some e →
            ∃ lb, s.layerBuilders[layers.length - i]? = some lb
              ∧ lb.nodeId = some e.renderNode.nodeId)
        ∧ (∃ lb0, s.layerBuilders[0]? = some lb0 ∧ lb0.nodeId = none) := by
  obtain ⟨N2, h2⟩ := rootsFold_effect nodes
    (fun n hn => nodeProps_of_ops n (balRun (hroots n hn)))
  have hg0 : GoodState (initFrameState clip vpWidth vpHeight lightCenter) := by
    refine ⟨List.cons_ne_nil _ _, List.cons_ne_nil _ _, ?_⟩
    intro i hi
    simp only [initFrameState, List.mem_cons, List.not_mem_nil, or_false] at hi
    subst hi
    simp [initFrameState]
  obtain ⟨s1, hp1, hsv1, hls1, hlen1, hidx1, hm1⟩ :=
    entriesFold_draws layers.reverse
      (fun x hx op hop => hdraws x (List.mem_reverse.mp hx) op hop) N2
      (initFrameState clip vpWidth vpHeight lightCenter) (List.cons_ne_nil _ _)
  have hg1 : GoodState s1 :=
    GoodState.congr hg0 hsv1 hls1 (by rw [hlen1]; omega)
  obtain ⟨s2, hp2, hsv2, hls2, hle2, hg2, hm2⟩ := h2 (N2 + 2) (by omega) s1 hg1
  refine ⟨N2 + 2, s2, ?_, ?_, ?_⟩
  · unfold frameBuild
    rw [hp1]
    simp only [Option.bind_eq_bind, Option.some_bind]
    exact hp2
  · intro i e hie
    have hi : i < layers.length := getElem_some_lt _ _ _ hie
    have hrev : layers.reverse[layers.length - 1 - i]? = some e := by
      rw [List.getElem?_reverse (by omega)]
      rw [show layers.length - 1 - (layers.length - 1 - i) = i from by omega]
      exact hie
    obtain ⟨lb, hlb, hnid⟩ := hidx1 (layers.length - 1 - i) e hrev
    have harith : (initFrameState clip vpWidth vpHeight lightCenter).layerBuilders.length
        + (layers.reverse.length - 1 - i) = layers.length - i := by
      show 1 + (layers.reverse.length - 1 - i) = layers.length - i
      simp only [List.length_reverse]
      omega
    rw [show layers.length - 1 - i = layers.reverse.length - 1 - i from by
      rw [List.length_reverse]] at hlb
    rw [harith] at hlb
    obtain ⟨y, hy, hmp⟩ := hm2 (layers.length - i) lb hlb
    exact ⟨y, hy, by rw [hmp.nodeId, hnid]⟩
  · obtain ⟨y1, hy1, hmp1⟩ := hm1 0
      ⟨vpWidth, vpHeight, clip, none, none, [], []⟩ rfl
    obtain ⟨y2, hy2, hmp2⟩ := hm2 0 y1 hy1
    exact ⟨y2, hy2, by rw [hmp2.nodeId, hmp1.nodeId]⟩

/-- Entry with node id 10 and an empty display list. -/
def c4e0 : LayerEntry :=
  ⟨RenderNode.mk 10
    ⟨1, 0, 0, 0, 0, 1, 1, none, none, false, false, Affine.identM, 50, 50,
     false, false, false, false, ⟨0, 0, 0, 0⟩, false, ⟨0, 0, 0, 0⟩, 0, false, false, false⟩
    false false Affine.identM (some (DisplayList.mk [])), ⟨0, 0, 50, 50⟩⟩

/-- Entry with node id 20 whose display list opens and closes a
save-layer, appending an extra (non-entry) builder. -/
def c4e1 : LayerEntry :=
  ⟨RenderNode.mk 20
    ⟨1, 0, 0, 0, 0, 1, 1, none, none, false, false, Affine.identM, 50, 50,
     false, false, false, false, ⟨0, 0, 0, 0⟩, false, ⟨0, 0, 0, 0⟩, 0, false, false, false⟩
    false false Affine.identM
    (some (DisplayList.mk
      [DLOp.beginLayerOp ⟨⟨0, 0, 5, 5⟩, Affine.identM, none, basePaint⟩, DLOp.endLayerOp])),
   ⟨0, 0, 50, 50⟩⟩

/-- C4 counterexample: with N = 2 entries e0 (node 10, empty display
list) and e1 (node 20, display list wrapping a save-layer), e1's
nested save-layer lands at builder index 2, so index j = 2 does not
correspond to entry e(N-j) = e0 as the claim demands — its builder
has no node id at all, and e0's builder is pushed out to index 3. -/
theorem frameBuilder_reverse_order_counterexample :
    (frameBuild 8 [c4e0, c4e1] baseClip 100 100 [] ⟨50, 50, 200⟩).map
        (fun s => s.layerBuilders.map LayerBuilderM.nodeId)
      = some [none, some 20, none, some 10]
    ∧ ([none, some 20, none, some 10] : List (Option Nat))[2]? = some none
    ∧ some (none : Option Nat) ≠ some (some c4e0.renderNode.nodeId) :=
  ⟨by decide, by decide, by decide⟩

/-- Draws-only entry with node id 30. -/
def c4w0 : LayerEntry :=
  ⟨RenderNode.mk 30
    ⟨1, 0, 0, 0, 0, 1, 1, none, none, false, false, Affine.identM, 50, 50,
     false, false, false, false, ⟨0, 0, 0, 0⟩, false, ⟨0, 0, 0, 0⟩, 0, false, false, false⟩
    false false Affine.identM
    (some (DisplayList.mk [DLOp.rectOp ⟨⟨1, 1, 3, 3⟩, Affine.identM, none, basePaint⟩])),
   ⟨0, 0, 50, 50⟩⟩

/-- Draws-only entry with node id 40. -/
def c4w1 : LayerEntry :=
  ⟨RenderNode.mk 40
    ⟨1, 0, 0, 0, 0, 1, 1, none, none, false, false, Affine.identM, 50, 50,
     false, false, false, false, ⟨0, 0, 0, 0⟩, false, ⟨0, 0, 0, 0⟩, 0, false, false, false⟩
    false false Affine.identM (some (DisplayList.mk [])), ⟨0, 0, 50, 50⟩⟩

/-- Witness for the amended C4 at two draws-only entries. -/
theorem frameBuilder_reverse_entry_order_witness :
    ∃ (fuel : Nat) (s : FrameState),
      frameBuild fuel [c4w0, c4w1] baseClip 100 100 [] ⟨50, 50, 200⟩ = some s
        ∧ (∀ (i : Nat) (e : LayerEntry), ([c4w0, c4w1] : List LayerEntry)[i]? = some e →
            ∃ lb, s.layerBuilders[([c4w0, c4w1] : List LayerEntry).length - i]? = some lb
              ∧ lb.nodeId = some e.renderNode.nodeId)
        ∧ (∃ lb0, s.layerBuilders[0]? = some lb0 ∧ lb0.nodeId = none) :=
  frameBuilder_reverse_entry_order [c4w0, c4w1] baseClip 100 100 [] ⟨50, 50, 200⟩
    (by decide) (fun n hn => absurd hn (List.not_mem_nil n))
